import Mathlib

/-!
# Verification of the ILR scrape/ingest/extract pipeline

Shallow embedding of the worker core of the `ilr-project` repository:

* `apps/worker/src/extraction/extractor.ts` — `extractCaseData`,
  `parseFlexibleDate`, `isReasonableDate`;
* `apps/worker/src/utils/helpers.ts` — `hashContent` (SHA-256 prefix);
* `apps/worker/src/scraper/runner.ts` — `processPostsInBatches`
  classification and the progress-checkpoint policy of `runScraper`;
* `apps/worker/src/sources/immigration-boards.ts` — the page loop of
  `getPosts` (consecutive-failure ceiling, resume cursor);
* the shared utility `stripHtmlWithQuotes` (nested-quote removal loops).

Strings are modelled as lists of Unicode code points (`List Nat`).
JavaScript regular expressions are modelled by a small backtracking
engine (`RE` / `reM`) with the exact leftmost-first, greedy/lazy
semantics the source relies on; every pattern of the source is
transcribed token for token into an `RE` value.  JS `Date` values
(always constructed at local midnight here, process timezone UTC)
are modelled as a count of days since the Unix epoch; millisecond
arithmetic is explicit where the source uses `getTime()`.
-/

namespace ILR

/-- Code points of a string literal. -/
def strCodes (s : String) : List Nat := s.data.map Char.toNat

/-- ASCII lower-casing on code points (JS `toLowerCase` restricted to the
ASCII range, which is all the source's patterns and inputs use). -/
def lowerCode (n : Nat) : Nat := if 65 ≤ n ∧ n ≤ 90 then n + 32 else n

/-- `String.prototype.toLowerCase` on a code-point list. -/
def toLowerStr (s : List Nat) : List Nat := s.map lowerCode

/-- JS `\s` class (the whitespace code points that can occur in forum text). -/
def isJsSpace (n : Nat) : Bool :=
  n = 32 ∨ n = 9 ∨ n = 10 ∨ n = 11 ∨ n = 12 ∨ n = 13 ∨ n = 160

/-- JS `\d` class. -/
def isJsDigit (n : Nat) : Bool := 48 ≤ n ∧ n ≤ 57

/-- JS `\w` class: `[A-Za-z0-9_]`. -/
def isJsWord (n : Nat) : Bool :=
  (65 ≤ n ∧ n ≤ 90) ∨ (97 ≤ n ∧ n ≤ 122) ∨ (48 ≤ n ∧ n ≤ 57) ∨ n = 95

/-- `String.prototype.trim`. -/
def jsTrim (s : List Nat) : List Nat :=
  ((s.dropWhile (fun c => isJsSpace c)).reverse.dropWhile
    (fun c => isJsSpace c)).reverse

/-! ## A backtracking regular-expression engine

Semantics follow JavaScript `RegExp` (no `s` flag, `i` flag applied
throughout — every pattern in the source either carries `/i` or is
case-neutral): leftmost match, greedy `*`/`+`/`?`/`{m,n}`, lazy `*?`,
alternation tried left to right, word boundaries `\b`, capture groups,
and the negative lookahead used by the HTML stripper. -/

/-- Regular-expression abstract syntax, transcribed from the source's
pattern literals. -/
inductive RE where
  | eps : RE
  | cls (p : Nat → Bool) : RE
  | seq (a b : RE) : RE
  | alt (a b : RE) : RE
  | star (a : RE) : RE
  | lazyStar (a : RE) : RE
  | opt (a : RE) : RE
  | rep (a : RE) (lo hi : Nat) : RE
  | grp (i : Nat) (a : RE) : RE
  | wb : RE
  | nla (a : RE) : RE

/-- Captured groups: group index paired with the matched slice.  The most
recent assignment of a group is the head of the list. -/
def Caps := List (Nat × List Nat)

/-- Matcher continuation result: previous character, remaining input,
captures. -/
def MRes := Option Nat × List Nat × Caps

/-- Is the previous character a word character (start of input counts as
a non-word position)? -/
def isWordO : Option Nat → Bool
  | none => false
  | some c => isJsWord c

/-- The backtracking matcher.  `prev` is the character immediately before
the current position (for `\b`), `caps` the captures recorded so far on
the current backtracking branch, `k` the continuation.  `fuel` bounds the
recursion; all uses supply enough fuel (see `reFuel`). -/
def reM : Nat → RE → Option Nat → List Nat → Caps →
    (Option Nat → List Nat → Caps → Option MRes) → Option MRes
  | 0, _, _, _, _, _ => none
  | fuel+1, r, prev, s, caps, k =>
    match r with
    | .eps => k prev s caps
    | .cls p =>
      match s with
      | [] => none
      | c :: rest => if p c then k (some c) rest caps else none
    | .seq a b => reM fuel a prev s caps (fun p' s' c' => reM fuel b p' s' c' k)
    | .alt a b =>
      match reM fuel a prev s caps k with
      | some r => some r
      | none => reM fuel b prev s caps k
    | .opt a =>
      match reM fuel a prev s caps k with
      | some r => some r
      | none => k prev s caps
    | .star a =>
      match reM fuel a prev s caps (fun p' s' c' =>
          if s'.length < s.length then reM fuel (.star a) p' s' c' k
          else k p' s' c') with
      | some r => some r
      | none => k prev s caps
    | .lazyStar a =>
      match k prev s caps with
      | some r => some r
      | none =>
        reM fuel a prev s caps (fun p' s' c' =>
          if s'.length < s.length then reM fuel (.lazyStar a) p' s' c' k
          else none)
    | .rep a lo hi =>
      match lo with
      | n+1 => reM fuel a prev s caps (fun p' s' c' =>
          reM fuel (.rep a n (hi - 1)) p' s' c' k)
      | 0 =>
        match hi with
        | 0 => k prev s caps
        | m+1 =>
          match reM fuel a prev s caps (fun p' s' c' =>
              if s'.length < s.length then reM fuel (.rep a 0 m) p' s' c' k
              else k p' s' c') with
          | some r => some r
          | none => k prev s caps
    | .grp i a =>
      reM fuel a prev s caps (fun p' s' c' =>
        k p' s' ((i, s.take (s.length - s'.length)) :: c'))
    | .wb =>
      let left := isWordO prev
      let right := match s with | [] => false | c :: _ => isJsWord c
      if left ≠ right then k prev s caps else none
    | .nla a =>
      match reM fuel a prev s [] (fun p' s' c' => some (p', s', c')) with
      | some _ => none
      | none => k prev s caps

/-- Fuel that is ample for every pattern/input pair in this development. -/
def reFuel (s : List Nat) : Nat := (s.length + 4) * (s.length + 4) * 64

/-- Try to match `r` at the current position; on success return the number
of characters consumed and the captures. -/
def matchAtPos (r : RE) (prev : Option Nat) (s : List Nat) :
    Option (Nat × Caps) :=
  match reM (reFuel s) r prev s [] (fun p' s' c' => some (p', s', c')) with
  | some (_, s', caps) => some (s.length - s'.length, caps)
  | none => none

/-- Scan for the leftmost match (JS `String.prototype.match` without the
`g` flag).  Returns (start index, length, captures). -/
def reFindAux (r : RE) : Option Nat → List Nat → Nat →
    Option (Nat × Nat × Caps)
  | prev, s, i =>
    match matchAtPos r prev s with
    | some (n, caps) => some (i, n, caps)
    | none =>
      match s with
      | [] => none
      | c :: rest => reFindAux r (some c) rest (i + 1)

def reFind (r : RE) (s : List Nat) : Option (Nat × Nat × Caps) :=
  reFindAux r none s 0

/-- JS `RegExp.prototype.test`. -/
def reTest (r : RE) (s : List Nat) : Bool := (reFind r s).isSome

/-- Capture group lookup (`match[i]`); `none` both when the whole match
failed and when the group did not participate. -/
def reGroup (r : RE) (i : Nat) (s : List Nat) : Option (List Nat) :=
  match reFind r s with
  | some (_, _, caps) => caps.lookup i
  | none => none

/-! Pattern-building helpers, mirroring the regex constructs used in the
source.  Literal text is matched case-insensitively (`/i`). -/

/-- A single literal character, case-insensitive. -/
def rCh (c : Char) : RE := .cls (fun n => lowerCode n = lowerCode c.toNat)

/-- A literal string, case-insensitive. -/
def rT (t : String) : RE :=
  (t.data.map rCh).foldr (fun a b => RE.seq a b) RE.eps

def rSeq (l : List RE) : RE := l.foldr (fun a b => RE.seq a b) RE.eps

def rAlt (l : List RE) : RE :=
  match l with
  | [] => .cls (fun _ => false)
  | [a] => a
  | a :: rest => .alt a (rAlt rest)

/-- `.` — any character except a line terminator. -/
def rDot : RE := .cls (fun n => ¬ (n = 10 ∨ n = 13 ∨ n = 8232 ∨ n = 8233))

def rSp : RE := .cls (fun n => isJsSpace n)
def rD : RE := .cls (fun n => isJsDigit n)
def rW : RE := .cls (fun n => isJsWord n)
/-- The class `[\s\/\-\.]` used by all of the source's date captures. -/
def rSep : RE := .cls (fun n => isJsSpace n ∨ n = 47 ∨ n = 45 ∨ n = 46)
/-- The class `[:\-]`. -/
def rColonDash : RE := .cls (fun n => n = 58 ∨ n = 45)
/-- The class `[\s\S]` — truly any character. -/
def rAny : RE := .cls (fun _ => true)

def rPlus (a : RE) : RE := .seq a (.star a)

/-! ## Dates

JS `Date` values are always built here as `new Date(year, month0, day)`
— local midnight; the worker runs with a UTC clock, so a date is the day
count `daysFromCivil` times `msPerDay` milliseconds.  Day overflow
(e.g. `new Date(2020, 1, 31)`) normalizes linearly, exactly as the
civil-day formula below does. -/

/-- Days from the Unix epoch of a proleptic-Gregorian civil date
(`m` is 1-based; `d` may exceed the month length and rolls over
linearly, as JS `Date` normalization does). -/
def daysFromCivil (y m d : Int) : Int :=
  let y' := if m ≤ 2 then y - 1 else y
  let era : Int := Int.fdiv y' 400
  let yoe : Int := y' - era * 400
  let mp : Int := if 2 < m then m - 3 else m + 9
  let doy : Int := Int.fdiv (153 * mp + 2) 5 + d - 1
  let doe : Int := yoe * 365 + Int.fdiv yoe 4 - Int.fdiv yoe 100 + doy
  era * 146097 + doe - 719468

/-- Sanity anchors for the civil-day conversion. -/
theorem daysFromCivil_epoch : daysFromCivil 1970 1 1 = 0 := by decide

theorem daysFromCivil_y2k : daysFromCivil 2000 1 1 = 10957 := by decide

/-- `new Date(year, month0, day)` as epoch days: JS remaps two-digit
years into 19xx. -/
def jsDateDays (year month0 day : Int) : Int :=
  let y := if 0 ≤ year ∧ year ≤ 99 then 1900 + year else year
  daysFromCivil y (month0 + 1) day

def msPerDay : Int := 86400000

/-- `new Date(2010, 0, 1).getTime()`. -/
def minDateMs : Int := daysFromCivil 2010 1 1 * msPerDay

/-- `isReasonableDate` (extractor.ts:379-385): the date must lie between
1 Jan 2010 and 30 days after the current clock reading `nowMs`. -/
def isReasonableDate (d : Int) (nowMs : Int) : Bool :=
  minDateMs ≤ d * msPerDay ∧ d * msPerDay ≤ nowMs + 30 * msPerDay

/-- `parseInt(s, 10)` on an all-digit capture. -/
def digitsVal (l : List Nat) : Nat :=
  l.foldl (fun acc c => acc * 10 + (c - 48)) 0

/-- The month-name table of `parseFlexibleDate` (keys lowercase). -/
def monthNames : List (List Nat × Nat) :=
  [(strCodes "jan", 0), (strCodes "january", 0),
   (strCodes "feb", 1), (strCodes "february", 1),
   (strCodes "mar", 2), (strCodes "march", 2),
   (strCodes "apr", 3), (strCodes "april", 3),
   (strCodes "may", 4),
   (strCodes "jun", 5), (strCodes "june", 5),
   (strCodes "jul", 6), (strCodes "july", 6),
   (strCodes "aug", 7), (strCodes "august", 7),
   (strCodes "sep", 8), (strCodes "sept", 8), (strCodes "september", 8),
   (strCodes "oct", 9), (strCodes "october", 9),
   (strCodes "nov", 10), (strCodes "november", 10),
   (strCodes "dec", 11), (strCodes "december", 11)]

/-- `monthNames[key] ?? monthNames[key.slice(0, 3)]`. -/
def monthLookup (key : List Nat) : Option Nat :=
  match monthNames.lookup key with
  | some m => some m
  | none => monthNames.lookup (key.take 3)

/-- `/(\d{1,2})[\s\/\-\.](\d{1,2})[\s\/\-\.](\d{2,4})/`. -/
def numericDateRE : RE :=
  rSeq [.grp 1 (.rep rD 1 2), rSep, .grp 2 (.rep rD 1 2), rSep,
        .grp 3 (.rep rD 2 4)]

/-- `/(\d{1,2})\s+(\w+)\s+(\d{4})/i`. -/
def textDateRE : RE :=
  rSeq [.grp 1 (.rep rD 1 2), rPlus rSp, .grp 2 (rPlus rW), rPlus rSp,
        .grp 3 (.rep rD 4 4)]

/-- `/(\w+)\s+(\d{1,2}),?\s+(\d{4})/i`. -/
def usDateRE : RE :=
  rSeq [.grp 1 (rPlus rW), rPlus rSp, .grp 2 (.rep rD 1 2), .opt (rCh ','),
        rPlus rSp, .grp 3 (.rep rD 4 4)]

/-- The `numericMatch` branch of `parseFlexibleDate` (DD/MM/YYYY, UK
day-first; the `isNaN(date.getTime())` test is vacuous for the bounded
years produced here and is omitted). -/
def tryNumericDate (str : List Nat) (nowMs : Int) : Option Int :=
  match reFind numericDateRE str with
  | none => none
  | some (_, _, caps) =>
    match caps.lookup 1, caps.lookup 2, caps.lookup 3 with
    | some dayS, some monS, some yearS =>
      let day : Int := digitsVal dayS
      let month : Int := (digitsVal monS : Int) - 1
      let year0 : Int := digitsVal yearS
      let year : Int := if year0 < 100 then year0 + 2000 else year0
      if 1 ≤ day ∧ day ≤ 31 ∧ 0 ≤ month ∧ month ≤ 11 then
        let date := jsDateDays year month day
        if isReasonableDate date nowMs then some date else none
      else none
    | _, _, _ => none

/-- The `textDateMatch` branch of `parseFlexibleDate` (D Month YYYY). -/
def tryTextDate (str : List Nat) (nowMs : Int) : Option Int :=
  match reFind textDateRE str with
  | none => none
  | some (_, _, caps) =>
    match caps.lookup 1, caps.lookup 2, caps.lookup 3 with
    | some dayS, some monS, some yearS =>
      let day : Int := digitsVal dayS
      let year : Int := digitsVal yearS
      match monthLookup (toLowerStr monS) with
      | some month =>
        if 1 ≤ day ∧ day ≤ 31 then
          let date := jsDateDays year month day
          if isReasonableDate date nowMs then some date else none
        else none
      | none => none
    | _, _, _ => none

/-- The `usDateMatch` branch of `parseFlexibleDate` (Month D, YYYY). -/
def tryUSDate (str : List Nat) (nowMs : Int) : Option Int :=
  match reFind usDateRE str with
  | none => none
  | some (_, _, caps) =>
    match caps.lookup 1, caps.lookup 2, caps.lookup 3 with
    | some monS, some dayS, some yearS =>
      let day : Int := digitsVal dayS
      let year : Int := digitsVal yearS
      match monthLookup (toLowerStr monS) with
      | some month =>
        if 1 ≤ day ∧ day ≤ 31 then
          let date := jsDateDays year month day
          if isReasonableDate date nowMs then some date else none
        else none
      | none => none
    | _, _, _ => none

/-- `parseFlexibleDate` (extractor.ts:303-374): the three date formats
tried in order; a candidate that parses but fails `isReasonableDate`
falls through to the next format. -/
def parseFlexibleDate (s : List Nat) (nowMs : Int) : Option Int :=
  let str := jsTrim s
  match tryNumericDate str nowMs with
  | some d => some d
  | none =>
    match tryTextDate str nowMs with
    | some d => some d
    | none => tryUSDate str nowMs

/-! ## The extraction engine (`extractCaseData`, extractor.ts:24-293)

Each regex literal of the source is transcribed below; the phases appear
in source order.  The clock enters only through `parseFlexibleDate`'s
call to `isReasonableDate`, so `extractCaseData` takes the current time
`nowMs` explicitly.  (The source's local variables `lines` and `text`
are computed but never used and are omitted.) -/

inductive Outcome where
  | approved : Outcome
  | rejected : Outcome
  | pending : Outcome
  | unknown : Outcome
deriving DecidableEq, Repr

structure ExtractionResult where
  applicationType : Option (List Nat) := none
  applicationRoute : Option (List Nat) := none
  applicationDate : Option Int := none
  biometricsDate : Option Int := none
  decisionDate : Option Int := none
  waitingDays : Option Int := none
  serviceCenter : Option (List Nat) := none
  applicantLocation : Option (List Nat) := none
  outcome : Option Outcome := none
  /-- The confidence score, stored exactly as a numerator over the fixed
  denominator 20: every weight in the source is a multiple of 0.5, so
  `min(confidenceScore / 10, 1)` is a multiple of 1/20, and all the
  source's comparisons against 0.3 / 0.4 / 0.7 are exact at this
  granularity (and agree with IEEE-754 evaluation, since `x/10` and the
  decimal literals round to the same floats).  The rational value is
  `confidenceVal` below. -/
  confidenceN : Nat := 0
  extractionNotes : Option (List Nat) := none
deriving DecidableEq, Repr

/-- The `confidence` field of the source as an exact rational in `[0,1]`. -/
def confidenceVal (r : ExtractionResult) : ℚ := r.confidenceN / 20

/-- In-flight extraction state: the result under construction, the
`notes` array, and the accumulated `confidenceScore`. -/
structure ExtractState where
  res : ExtractionResult := {}
  notes : List (List Nat) := []
  /-- `confidenceScore` in half-point units (the source's weights are all
  multiples of 0.5; `score2 = 2 * confidenceScore`). -/
  score2 : Nat := 0
deriving DecidableEq, Repr

/-- `confidenceScore` as an exact rational. -/
def scoreVal (st : ExtractState) : ℚ := st.score2 / 2

/-- Boolean prefix test on code-point lists. -/
def listPrefixOf : List Nat → List Nat → Bool
  | [], _ => true
  | _ :: _, [] => false
  | a :: as, b :: bs => a = b && listPrefixOf as bs

/-- Boolean substring test (`String.prototype.includes`). -/
def inclList (sub : List Nat) : List Nat → Bool
  | [] => listPrefixOf sub []
  | c :: rest => listPrefixOf sub (c :: rest) || inclList sub rest

/-- `routeRaw.includes(sub)`. -/
def inclS (sub : String) (l : List Nat) : Bool := inclList (strCodes sub) l

/-- `/(?:applied\s+for\s+)?ilr\s+route\s*[:\-]?\s*(.+)/i`. -/
def routeP1 : RE :=
  rSeq [.opt (rSeq [rT "applied", rPlus rSp, rT "for", rPlus rSp]),
        rT "ilr", rPlus rSp, rT "route", .star rSp, .opt rColonDash,
        .star rSp, .grp 1 (rPlus rDot)]

/-- `/route\s*[:\-]?\s*(set\s*\([omf]\)|tier\s*\d|spouse|partner|10.?year|5.?year|long.?res)/i`. -/
def routeP2 : RE :=
  rSeq [rT "route", .star rSp, .opt rColonDash, .star rSp,
    .grp 1 (rAlt
      [rSeq [rT "set", .star rSp, rCh '(',
             .cls (fun n => lowerCode n = 111 ∨ lowerCode n = 109 ∨ lowerCode n = 102),
             rCh ')'],
       rSeq [rT "tier", .star rSp, rD],
       rT "spouse", rT "partner",
       rSeq [rT "10", .opt rDot, rT "year"],
       rSeq [rT "5", .opt rDot, rT "year"],
       rSeq [rT "long", .opt rDot, rT "res"]])]

/-- `/application\s+type\s*[:\-]?\s*(.+)/i`. -/
def routeP3 : RE :=
  rSeq [rT "application", rPlus rSp, rT "type", .star rSp, .opt rColonDash,
        .star rSp, .grp 1 (rPlus rDot)]

def routePatterns : List RE := [routeP1, routeP2, routeP3]

/-- Route normalization (extractor.ts:52-79): fixed vocabulary first,
else the raw capture trimmed and capped at 50 characters. -/
def applyRoute (cap : List Nat) (st : ExtractState) : ExtractState :=
  let routeRaw := toLowerStr (jsTrim cap)
  let res := st.res
  let res :=
    if inclS "set(o)" routeRaw ∨ inclS "set (o)" routeRaw then
      { res with applicationRoute := some (strCodes "SET(O)"),
                 applicationType := some (strCodes "ILR") }
    else if inclS "set(m)" routeRaw ∨ inclS "set (m)" routeRaw then
      { res with applicationRoute := some (strCodes "SET(M)"),
                 applicationType := some (strCodes "ILR") }
    else if inclS "set(f)" routeRaw ∨ inclS "set (f)" routeRaw then
      { res with applicationRoute := some (strCodes "SET(F)"),
                 applicationType := some (strCodes "ILR") }
    else if inclS "2x3" routeRaw ∨ inclS "dlr" routeRaw then
      { res with applicationRoute := some (strCodes "10-year"),
                 applicationType := some (strCodes "ILR") }
    else if inclS "tier 2" routeRaw ∨ inclS "tier2" routeRaw then
      { res with applicationRoute := some (strCodes "Tier 2"),
                 applicationType := some (strCodes "ILR") }
    else if inclS "spouse" routeRaw then
      { res with applicationRoute := some (strCodes "Spouse"),
                 applicationType := some (strCodes "ILR") }
    else if inclS "dependent" routeRaw ∨ inclS "dependant" routeRaw then
      { res with applicationRoute := some (strCodes "Dependant"),
                 applicationType := some (strCodes "ILR") }
    else
      { res with applicationRoute := some ((jsTrim cap).take 50),
                 applicationType := some (strCodes "ILR") }
  { st with res := res, score2 := st.score2 + 4 }

/-- The route-pattern loop (first pattern with a truthy `match[1]` wins). -/
def routeLoop : List RE → List Nat → ExtractState → ExtractState
  | [], _, st => st
  | p :: rest, content, st =>
    match reGroup p 1 content with
    | some cap => if cap ≠ [] then applyRoute cap st
                  else routeLoop rest content st
    | none => routeLoop rest content st

def routePhase (content : List Nat) (st : ExtractState) : ExtractState :=
  routeLoop routePatterns content st

/-- The date capture common to all labeled-date patterns:
`(\d{1,2}[\s\/\-\.]+\w+[\s\/\-\.]+\d{2,4}|\d{1,2}[\s\/\-\.]+\d{1,2}[\s\/\-\.]+\d{2,4})`. -/
def dateCap : RE :=
  .grp 1 (.alt
    (rSeq [.rep rD 1 2, rPlus rSep, rPlus rW, rPlus rSep, .rep rD 2 4])
    (rSeq [.rep rD 1 2, rPlus rSep, .rep rD 1 2, rPlus rSep, .rep rD 2 4]))

def applicationDatePatterns : List RE :=
  [rSeq [.opt (rSeq [rT "date", rPlus rSp]), rT "application", rPlus rSp,
         rT "sent", .star rSp, .opt rColonDash, .star rSp, dateCap],
   rSeq [.opt (rSeq [rT "date", rPlus rSp]), rT "applied", .star rSp,
         .opt rColonDash, .star rSp, dateCap],
   rSeq [rT "submitted", .star rSp, .opt (rT "on"), .star rSp,
         .opt rColonDash, .star rSp, dateCap],
   rSeq [rT "application", rPlus rSp, rT "date", .star rSp, .opt rColonDash,
         .star rSp, dateCap]]

def biometricsPatterns : List RE :=
  [rSeq [rT "biometric", .opt (rCh 's'), rPlus rSp,
         rAlt [rT "date", rT "enrolled", rT "done", rT "completed"],
         .star rSp, .opt rColonDash, .star rSp, dateCap],
   rSeq [.opt (rSeq [rT "date", rPlus rSp]), rT "biometric", .opt (rCh 's'),
         .star rSp, .opt rColonDash, .star rSp, dateCap],
   rSeq [rT "bio", .opt (rSeq [rT "metric", .opt (rCh 's')]), rPlus rSp,
         rT "letter", rPlus rSp, rT "received", .star rSp, .opt rColonDash,
         .star rSp, dateCap]]

def decisionPatterns : List RE :=
  [rSeq [rAlt [rT "approval", rT "decision", rSeq [rT "approve", .opt (rCh 'd')]],
         .star rSp, .opt (rSeq [rCh '/', .star rSp, rT "refusal"]), .star rSp,
         .opt (rAlt [rT "received", rT "date", rT "email"]), .star rSp,
         .opt rColonDash, .star rSp, dateCap],
   rSeq [rAlt [rT "refusal", rT "refused", rT "rejected"], .star rSp,
         .opt (rAlt [rT "received", rT "date"]), .star rSp, .opt rColonDash,
         .star rSp, dateCap],
   rSeq [rT "brp", rPlus rSp, .opt (rSeq [rT "card", rPlus rSp]),
         rT "received", .star rSp, .opt rColonDash, .star rSp, dateCap],
   rSeq [rT "e", .opt (rCh '-'), rT "visa", rPlus rSp,
         .opt (rSeq [rT "status", rPlus rSp]),
         rAlt [rT "changed", rT "updated"], .star rSp, .opt rColonDash,
         .star rSp, dateCap],
   rSeq [rT "settled", .star rSp, .opt rColonDash, .star rSp, dateCap]]

/-- The shared shape of the three date-pattern loops: first pattern whose
capture parses wins; a capture that fails to parse falls through to the
next pattern. -/
def dateLoop (pats : List RE) (content : List Nat) (nowMs : Int) :
    Option Int :=
  match pats with
  | [] => none
  | p :: rest =>
    match reGroup p 1 content with
    | some cap =>
      if cap ≠ [] then
        match parseFlexibleDate cap nowMs with
        | some d => some d
        | none => dateLoop rest content nowMs
      else dateLoop rest content nowMs
    | none => dateLoop rest content nowMs

def appDatePhase (content : List Nat) (nowMs : Int) (st : ExtractState) :
    ExtractState :=
  match dateLoop applicationDatePatterns content nowMs with
  | some d => { st with res := { st.res with applicationDate := some d },
                        score2 := st.score2 + 3 }
  | none => st

def bioPhase (content : List Nat) (nowMs : Int) (st : ExtractState) :
    ExtractState :=
  match dateLoop biometricsPatterns content nowMs with
  | some d => { st with res := { st.res with biometricsDate := some d },
                        score2 := st.score2 + 1 }
  | none => st

def decisionPhase (content : List Nat) (nowMs : Int) (st : ExtractState) :
    ExtractState :=
  match dateLoop decisionPatterns content nowMs with
  | some d => { st with res := { st.res with decisionDate := some d },
                        score2 := st.score2 + 3 }
  | none => st

/-- extractor.ts:149-159 — waiting days.  `diffDays` is
`Math.round((decision − application) / msPerDay)`, which is exactly
`d − a` because both dates are (UTC) midnights. -/
def waitingPhase (st : ExtractState) : ExtractState :=
  match st.res.applicationDate, st.res.decisionDate with
  | some a, some d =>
    let diffDays := d - a
    if 0 < diffDays ∧ diffDays < 1000 then
      { st with res := { st.res with waitingDays := some diffDays },
                score2 := st.score2 + 4 }
    else
      { st with notes :=
          st.notes ++ [strCodes "Calculated waiting days seem invalid"] }
  | _, _ => st

/-! Outcome detection (extractor.ts:161-195). -/

/-- `/brp\s+(?:card\s+)?received\s*[:\-]?\s*\d/i`. -/
def brpReceivedRE : RE :=
  rSeq [rT "brp", rPlus rSp, .opt (rSeq [rT "card", rPlus rSp]),
        rT "received", .star rSp, .opt rColonDash, .star rSp, rD]

/-- `/e-?visa.*settled/i`. -/
def evisaSettledRE : RE :=
  rSeq [rT "e", .opt (rCh '-'), rT "visa", .star rDot, rT "settled"]

/-- `/approval\s+email\s*[:\-]?\s*\d/i`. -/
def approvalEmailRE : RE :=
  rSeq [rT "approval", rPlus rSp, rT "email", .star rSp, .opt rColonDash,
        .star rSp, rD]

/-- `/\b(refused|rejected|denied|unsuccessful)\b/i`. -/
def refusalWordsRE : RE :=
  rSeq [.wb, .grp 1 (rAlt [rT "refused", rT "rejected", rT "denied",
                           rT "unsuccessful"]), .wb]

/-- `/refusal\s+received\s*[:\-]?\s*\d/i`. -/
def refusalReceivedRE : RE :=
  rSeq [rT "refusal", rPlus rSp, rT "received", .star rSp, .opt rColonDash,
        .star rSp, rD]

/-- `/\b(approved!?|granted!?|successful!?)\b/i`. -/
def approvalWordsRE : RE :=
  rSeq [.wb, .grp 1 (rAlt [rSeq [rT "approved", .opt (rCh '!')],
                           rSeq [rT "granted", .opt (rCh '!')],
                           rSeq [rT "successful", .opt (rCh '!')]]), .wb]

/-- `/\bgot\s+my\s+ilr\b/i`. -/
def gotMyIlrRE : RE :=
  rSeq [.wb, rT "got", rPlus rSp, rT "my", rPlus rSp, rT "ilr", .wb]

/-- `/\bilr\s+granted\b/i`. -/
def ilrGrantedRE : RE := rSeq [.wb, rT "ilr", rPlus rSp, rT "granted", .wb]

/-- `/\b(still\s+waiting|awaiting\s+decision|no\s+decision\s+yet)\b/i`. -/
def pendingRE : RE :=
  rSeq [.wb, .grp 1 (rAlt
    [rSeq [rT "still", rPlus rSp, rT "waiting"],
     rSeq [rT "awaiting", rPlus rSp, rT "decision"],
     rSeq [rT "no", rPlus rSp, rT "decision", rPlus rSp, rT "yet"]]), .wb]

def outcomePhase (content : List Nat) (st : ExtractState) : ExtractState :=
  let hasBrpReceived := reTest brpReceivedRE content
  let hasEvisaSettled := reTest evisaSettledRE content
  let hasApprovalEmail := reTest approvalEmailRE content
  let hasRefusal := reTest refusalWordsRE content ||
    reTest refusalReceivedRE content
  let hasApproval := reTest approvalWordsRE content ||
    reTest gotMyIlrRE content || reTest ilrGrantedRE content
  let isPending := reTest pendingRE content
  if hasBrpReceived || hasEvisaSettled || hasApprovalEmail || hasApproval then
    { st with res := { st.res with outcome := some .approved },
              score2 := st.score2 + 2 }
  else if hasRefusal then
    { st with res := { st.res with outcome := some .rejected },
              score2 := st.score2 + 2 }
  else if isPending then
    { st with res := { st.res with outcome := some .pending },
              score2 := st.score2 + 1 }
  else st

/-! Service-center gazetteer (extractor.ts:201-217). -/

def centerPatterns : List (RE × List Nat) :=
  [(rT "sheffield", strCodes "Sheffield"),
   (rT "liverpool", strCodes "Liverpool"),
   (rT "croydon", strCodes "Croydon"),
   (rT "cardiff", strCodes "Cardiff"),
   (rT "belfast", strCodes "Belfast"),
   (rT "glasgow", strCodes "Glasgow"),
   (rT "ukvcas", strCodes "UKVCAS")]

def centerLoop : List (RE × List Nat) → List Nat → ExtractState →
    ExtractState
  | [], _, st => st
  | (p, center) :: rest, content, st =>
    if reTest p content then
      { st with res := { st.res with serviceCenter := some center },
                score2 := st.score2 + 1 }
    else centerLoop rest content st

def centerPhase (content : List Nat) (st : ExtractState) : ExtractState :=
  centerLoop centerPatterns content st

/-! Fallback route detection (extractor.ts:224-243), only when no labeled
route matched. -/

/-- `/\bset\s*\(?o\)?/i` (and the `m`/`f` variants). -/
def bareSetRE (c : Char) : RE :=
  rSeq [.wb, rT "set", .star rSp, .opt (rCh '('), rCh c, .opt (rCh ')')]

/-- `/\b10[\s\-]?year/i`. -/
def tenYearRE : RE :=
  rSeq [.wb, rT "10", .opt (.cls (fun n => isJsSpace n ∨ n = 45)), rT "year"]

def fallbackRoutePhase (content : List Nat) (st : ExtractState) :
    ExtractState :=
  if st.res.applicationRoute = none then
    if reTest (bareSetRE 'o') content then
      { st with
        res := { st.res with
                 applicationRoute := some (strCodes "SET(O)"),
                 applicationType := some (strCodes "ILR") },
        score2 := st.score2 + 2 }
    else if reTest (bareSetRE 'm') content then
      { st with
        res := { st.res with
                 applicationRoute := some (strCodes "SET(M)"),
                 applicationType := some (strCodes "ILR") },
        score2 := st.score2 + 2 }
    else if reTest (bareSetRE 'f') content then
      { st with
        res := { st.res with
                 applicationRoute := some (strCodes "SET(F)"),
                 applicationType := some (strCodes "ILR") },
        score2 := st.score2 + 2 }
    else if reTest tenYearRE content then
      { st with
        res := { st.res with
                 applicationRoute := some (strCodes "10-year"),
                 applicationType := some (strCodes "ILR") },
        score2 := st.score2 + 1 }
    else st
  else st

/-! Application-type detection (extractor.ts:245-256), only when no type
was set by the route phases. -/

/-- `/\b(ilr|indefinite\s+leave\s+to\s+remain)\b/i`. -/
def ilrTypeRE : RE :=
  rSeq [.wb, .grp 1 (rAlt [rT "ilr",
    rSeq [rT "indefinite", rPlus rSp, rT "leave", rPlus rSp, rT "to",
          rPlus rSp, rT "remain"]]), .wb]

/-- `/\b(flr|further\s+leave)\b/i`. -/
def flrTypeRE : RE :=
  rSeq [.wb, .grp 1 (rAlt [rT "flr",
    rSeq [rT "further", rPlus rSp, rT "leave"]]), .wb]

/-- `/\bnaturali[sz]ation\b/i`. -/
def natTypeRE : RE :=
  rSeq [.wb, rT "naturali",
        .cls (fun n => lowerCode n = 115 ∨ lowerCode n = 122),
        rT "ation", .wb]

def typePhase (content : List Nat) (st : ExtractState) : ExtractState :=
  if st.res.applicationType = none then
    if reTest ilrTypeRE content then
      { st with res := { st.res with applicationType := some (strCodes "ILR") },
                score2 := st.score2 + 1 }
    else if reTest flrTypeRE content then
      { st with res := { st.res with applicationType := some (strCodes "FLR") },
                score2 := st.score2 + 1 }
    else if reTest natTypeRE content then
      { st with
        res := { st.res with
                 applicationType := some (strCodes "Naturalization") },
        score2 := st.score2 + 1 }
    else st
  else st

/-! Service-level notes (extractor.ts:262-274). -/

def wbWord (t : String) : RE := rSeq [.wb, rT t, .wb]

def notesPhase (content : List Nat) (st : ExtractState) : ExtractState :=
  let st := if reTest (wbWord "standard") content then
      { st with notes := st.notes ++ [strCodes "Standard service"] } else st
  let st := if reTest (wbWord "premium") content then
      { st with notes := st.notes ++ [strCodes "Premium service"] } else st
  let st := if reTest (rSeq [.wb, rT "super", .star rSp, rT "priority", .wb])
      content then
      { st with notes := st.notes ++ [strCodes "Super priority service"] }
    else st
  let st := if reTest (wbWord "priority") content then
      { st with notes := st.notes ++ [strCodes "Priority service"] } else st
  st

/-- `notes.join('; ')`. -/
def joinSep (sep : List Nat) : List (List Nat) → List Nat
  | [] => []
  | [x] => x
  | x :: y :: rest => x ++ sep ++ joinSep sep (y :: rest)

/-- Final confidence and note assembly (extractor.ts:276-292). -/
def finalize (st : ExtractState) : ExtractionResult :=
  let confN : Nat := min st.score2 20
  let res := { st.res with confidenceN := confN }
  let res :=
    if st.notes ≠ [] then
      { res with
        extractionNotes := some (joinSep (strCodes "; ") st.notes) }
    else res
  if 0 < confN ∧ confN < 8 then
    let old : List Nat :=
      match res.extractionNotes with
      | some ns => ns ++ strCodes "; "
      | none => []
    { res with
      extractionNotes := some
        (old ++ strCodes "Low confidence extraction - manual review recommended") }
  else res

/-- `extractCaseData` (extractor.ts:24-293): the phases in source order.
`nowMs` is the process clock at the moment of the call (`new Date()`). -/
def extractFinalState (content : List Nat) (nowMs : Int) : ExtractState :=
  notesPhase content (typePhase content (fallbackRoutePhase content
    (centerPhase content (outcomePhase content (waitingPhase
      (decisionPhase content nowMs (bioPhase content nowMs
        (appDatePhase content nowMs (routePhase content {})))))))))

def extractCaseData (content : List Nat) (nowMs : Int) : ExtractionResult :=
  finalize (extractFinalState content nowMs)

/-! ## `hashContent` (helpers.ts:11-13)

`createHash('sha256').update(content).digest('hex').slice(0, 32)` — the
first 32 hex characters (128 bits) of the SHA-256 digest of the UTF-8
bytes of the content.  SHA-256 (FIPS 180-4) is implemented below over
`Nat` with explicit `% 2^32`; bitwise operations are structural so that
the kernel can evaluate them. -/

/-- UTF-8 encoding of one code point. -/
def utf8Enc (n : Nat) : List Nat :=
  if n < 128 then [n]
  else if n < 2048 then [192 + n / 64, 128 + n % 64]
  else if n < 65536 then [224 + n / 4096, 128 + (n / 64) % 64, 128 + n % 64]
  else [240 + n / 262144, 128 + (n / 4096) % 64, 128 + (n / 64) % 64,
        128 + n % 64]

def utf8Bytes (s : List Nat) : List Nat := (s.map utf8Enc).flatten

def w32 : Nat := 4294967296

/-- Bitwise XOR on the low `fuel` bits (structural, kernel-reducible). -/
def bitXor : Nat → Nat → Nat → Nat
  | 0, _, _ => 0
  | f+1, a, b => ((a + b) % 2) + 2 * bitXor f (a / 2) (b / 2)

/-- Bitwise AND on the low `fuel` bits. -/
def bitAnd : Nat → Nat → Nat → Nat
  | 0, _, _ => 0
  | f+1, a, b => (a % 2) * (b % 2) + 2 * bitAnd f (a / 2) (b / 2)

def xor32 (a b : Nat) : Nat := bitXor 32 a b
def and32 (a b : Nat) : Nat := bitAnd 32 a b
/-- Bitwise complement of a 32-bit word. -/
def not32 (a : Nat) : Nat := 4294967295 - a % w32

def rotr32 (x n : Nat) : Nat := (x / 2 ^ n + x % 2 ^ n * 2 ^ (32 - n)) % w32
def shr32 (x n : Nat) : Nat := x / 2 ^ n

def sigmaBig0 (x : Nat) : Nat := xor32 (rotr32 x 2) (xor32 (rotr32 x 13) (rotr32 x 22))
def sigmaBig1 (x : Nat) : Nat := xor32 (rotr32 x 6) (xor32 (rotr32 x 11) (rotr32 x 25))
def sigmaSml0 (x : Nat) : Nat := xor32 (rotr32 x 7) (xor32 (rotr32 x 18) (shr32 x 3))
def sigmaSml1 (x : Nat) : Nat := xor32 (rotr32 x 17) (xor32 (rotr32 x 19) (shr32 x 10))
def chFn (e f g : Nat) : Nat := xor32 (and32 e f) (and32 (not32 e) g)
def majFn (a b c : Nat) : Nat := xor32 (and32 a b) (xor32 (and32 a c) (and32 b c))

structure Hash8 where
  a : Nat
  b : Nat
  c : Nat
  d : Nat
  e : Nat
  f : Nat
  g : Nat
  h : Nat
deriving DecidableEq, Repr

def sha256Init : Hash8 :=
  ⟨1779033703, 3144134277, 1013904242, 2773480762,
   1359893119, 2600822924, 528734635, 1541459225⟩

def sha256K : List Nat :=
  [1116352408, 1899447441, 3049323471, 3921009573,
   961987163, 1508970993, 2453635748, 2870763221,
   3624381080, 310598401, 607225278, 1426881987,
   1925078388, 2162078206, 2614888103, 3248222580,
   3835390401, 4022224774, 264347078, 604807628,
   770255983, 1249150122, 1555081692, 1996064986,
   2554220882, 2821834349, 2952996808, 3210313671,
   3336571891, 3584528711, 113926993, 338241895,
   666307205, 773529912, 1294757372, 1396182291,
   1695183700, 1986661051, 2177026350, 2456956037,
   2730485921, 2820302411, 3259730800, 3345764771,
   3516065817, 3600352804, 4094571909, 275423344,
   430227734, 506948616, 659060556, 883997877,
   958139571, 1322822218, 1537002063, 1747873779,
   1955562222, 2024104815, 2227730452, 2361852424,
   2428436474, 2756734187, 3204031479, 3329325298]

/-- Split a list into chunks of `n` (`n > 0`); `fuel` bounds the
recursion and is always supplied as `length + 1`. -/
def chunkF (n : Nat) : Nat → List α → List (List α)
  | 0, _ => []
  | _+1, [] => []
  | f+1, x :: xs => (x :: xs).take n :: chunkF n f ((x :: xs).drop n)

def chunks (n : Nat) (l : List α) : List (List α) := chunkF n (l.length + 1) l

/-- Big-endian bytes of a 64-bit length. -/
def be64 (n : Nat) : List Nat :=
  [n / 2^56 % 256, n / 2^48 % 256, n / 2^40 % 256, n / 2^32 % 256,
   n / 2^24 % 256, n / 2^16 % 256, n / 2^8 % 256, n % 256]

def be32 (n : Nat) : List Nat :=
  [n / 2^24 % 256, n / 2^16 % 256, n / 2^8 % 256, n % 256]

/-- SHA-256 padding: `0x80`, zeros to 56 mod 64, then the bit length. -/
def sha256Pad (msg : List Nat) : List Nat :=
  let z := (119 - msg.length % 64) % 64
  msg ++ [128] ++ List.replicate z 0 ++ be64 (8 * msg.length)

/-- Extend the 16 message-schedule words to 64. -/
def extendW : Nat → List Nat → List Nat
  | 0, ws => ws
  | f+1, ws =>
    if 64 ≤ ws.length then ws
    else
      let t := (sigmaSml1 (ws.getD (ws.length - 2) 0) +
                ws.getD (ws.length - 7) 0 +
                sigmaSml0 (ws.getD (ws.length - 15) 0) +
                ws.getD (ws.length - 16) 0) % w32
      extendW f (ws ++ [t])

def compressRounds : List (Nat × Nat) → Hash8 → Hash8
  | [], st => st
  | (ki, wi) :: rest, st =>
    let t1 := (st.h + sigmaBig1 st.e + chFn st.e st.f st.g + ki + wi) % w32
    let t2 := (sigmaBig0 st.a + majFn st.a st.b st.c) % w32
    compressRounds rest
      ⟨(t1 + t2) % w32, st.a, st.b, st.c, (st.d + t1) % w32, st.e, st.f, st.g⟩

def processBlock (st : Hash8) (block : List Nat) : Hash8 :=
  let ws16 := (chunks 4 block).map
    (fun b4 => b4.getD 0 0 * 2^24 + b4.getD 1 0 * 2^16 +
               b4.getD 2 0 * 2^8 + b4.getD 3 0)
  let w := extendW 48 ws16
  let r := compressRounds (sha256K.zip w) st
  ⟨(st.a + r.a) % w32, (st.b + r.b) % w32, (st.c + r.c) % w32,
   (st.d + r.d) % w32, (st.e + r.e) % w32, (st.f + r.f) % w32,
   (st.g + r.g) % w32, (st.h + r.h) % w32⟩

/-- SHA-256 of a byte list. -/
def sha256 (msg : List Nat) : Hash8 :=
  (chunks 64 (sha256Pad msg)).foldl processBlock sha256Init

def digestBytes (h : Hash8) : List Nat :=
  be32 h.a ++ be32 h.b ++ be32 h.c ++ be32 h.d ++
  be32 h.e ++ be32 h.f ++ be32 h.g ++ be32 h.h

/-- One lowercase hex digit (argument taken mod 16). -/
def hexDig (n : Nat) : Nat :=
  if n % 16 < 10 then 48 + n % 16 else 87 + n % 16

/-- `Buffer.toString('hex')`. -/
def toHexBytes (bs : List Nat) : List Nat :=
  (bs.map (fun b => [hexDig (b / 16), hexDig b])).flatten

/-- `hashContent` (helpers.ts:11-13). -/
def hashContent (content : List Nat) : List Nat :=
  (toHexBytes (digestBytes (sha256 (utf8Bytes content)))).take 32

/-! ## Ingestion pipeline (`processPostsInBatches`, runner.ts:344-536)

The database is modelled by the view `findPostsByExternalIds` returns —
an association of `externalId` to persisted `contentHash` — and the
effects of one call are recorded as a trace of writes and
extraction-engine invocations, each tagged with the scraped post it
originates from.  The in-transaction `findMany` over the just-inserted
rows is modelled as the batch itself; the cooperative-shutdown early
exits (which only drop effects) are not modelled. -/

structure ScrapedPost where
  externalId : List Nat
  content : List Nat
deriving DecidableEq, Repr

/-- Rows returned by `findPostsByExternalIds`: `externalId ↦ contentHash`
(the row id plays no role in classification). -/
def ExistingPosts := List (List Nat × List Nat)

/-- runner.ts:377-391 — split the page's posts into new and changed;
a post whose externalId exists with an equal hash lands in neither. -/
def classifyPosts (existing : ExistingPosts) :
    List ScrapedPost → List ScrapedPost × List ScrapedPost
  | [] => ([], [])
  | p :: rest =>
    let r := classifyPosts existing rest
    match List.lookup p.externalId existing with
    | none => (p :: r.1, r.2)
    | some h => if h ≠ hashContent p.content then (r.1, p :: r.2) else r

/-- One observable action of `processPostsInBatches`, tagged with the
scraped post that caused it. -/
inductive Effect where
  | insertPost (p : ScrapedPost) : Effect
  | extractRun (p : ScrapedPost) : Effect
  | insertCase (p : ScrapedPost) (e : ExtractionResult) : Effect
  | updatePost (p : ScrapedPost) : Effect
  | upsertCase (p : ScrapedPost) (e : ExtractionResult) : Effect
deriving DecidableEq, Repr

def Effect.origin : Effect → ScrapedPost
  | .insertPost p => p
  | .extractRun p => p
  | .insertCase p _ => p
  | .updatePost p => p
  | .upsertCase p _ => p

/-- runner.ts:394-465 — one new-post batch: insert the posts, run the
extractor on each, insert the cases whose confidence exceeds 0.3
(`confidenceN > 6`). -/
def newBatchEffects (nowMs : Int) (batch : List ScrapedPost) : List Effect :=
  batch.map .insertPost ++
  batch.map .extractRun ++
  batch.filterMap (fun p =>
    let e := extractCaseData p.content nowMs
    if 6 < e.confidenceN then some (.insertCase p e) else none)

/-- runner.ts:467-533 — one changed post: update content/hash, re-run the
extractor, upsert the case when confidence exceeds 0.3. -/
def changedEffects (nowMs : Int) (p : ScrapedPost) : List Effect :=
  let e := extractCaseData p.content nowMs
  [.updatePost p, .extractRun p] ++
  (if 6 < e.confidenceN then [.upsertCase p e] else [])

/-- `BATCH_SIZE` (runner.ts:17). -/
def BATCH_SIZE : Nat := 50

/-- The effect trace of one `processPostsInBatches` call. -/
def processPostsEffects (existing : ExistingPosts)
    (posts : List ScrapedPost) (nowMs : Int) : List Effect :=
  let c := classifyPosts existing posts
  ((chunks BATCH_SIZE c.1).map (newBatchEffects nowMs)).flatten ++
  (c.2.map (changedEffects nowMs)).flatten

/-! ## The `getPosts` page loop (immigration-boards.ts:542-707)

The page oracle abstracts what one iteration observes for a page:
`posts n` — `processPageWithTimeout` returned `n` extracted posts
(`n = 0` takes the "No posts extracted" failure path); `err` — the
iteration threw (timeout, missing markup, or a session crash whose
relaunch failed).  The session-crash branch whose relaunch *succeeds*
(which retries the same page and resets the failure counter) is not
modelled; it does not interact with the failure-ceiling/resume-cursor
behaviour below.  `MAX_CONSECUTIVE_FAILURES = 5`. -/

inductive PageOutcome where
  | posts (n : Nat) : PageOutcome
  | err : PageOutcome
deriving DecidableEq, Repr

/-- Did this page take a failure path? -/
def failedPage (oracle : Nat → PageOutcome) (p : Nat) : Prop :=
  oracle p = .err ∨ oracle p = .posts 0

inductive PageEvent where
  | pageData (page : Nat) (numPosts : Nat) : PageEvent
  | progress (page : Nat) : PageEvent
deriving DecidableEq, Repr

def PageEvent.page : PageEvent → Nat
  | .pageData p _ => p
  | .progress p => p

structure GetPostsRes where
  events : List PageEvent
  totalPostsScraped : Nat
  aborted : Bool
  /-- The page whose failure reached the ceiling (meaningful iff `aborted`). -/
  abortPage : Nat
  lastScrapedPage : Int
deriving DecidableEq, Repr

/-- The `for (currentPage = startFromPage; currentPage <= totalPages;
currentPage++)` loop.  On a successful page: `onPageData`, failure
counter reset, then `onProgress`.  On a failed page: counter
incremented; once it reaches 5 the loop breaks (no progress report) and
the returned progress is `currentPage - consecutiveFailures`; otherwise
`onProgress` still fires with the failed page.  A normally completed
loop reports `totalPages`. -/
def getPostsLoop (oracle : Nat → PageOutcome) (total : Nat) :
    Nat → Nat → Nat → GetPostsRes
  | 0, _, _ => ⟨[], 0, false, 0, (total : Int)⟩
  | fuel+1, cur, fails =>
    if total < cur then ⟨[], 0, false, 0, (total : Int)⟩
    else
      match oracle cur with
      | .posts (n+1) =>
        let r := getPostsLoop oracle total fuel (cur + 1) 0
        ⟨.pageData cur (n+1) :: .progress cur :: r.events,
         (n + 1) + r.totalPostsScraped, r.aborted, r.abortPage,
         r.lastScrapedPage⟩
      | .posts 0 | .err =>
        if 5 ≤ fails + 1 then
          ⟨[], 0, true, cur, (cur : Int) - ((fails : Int) + 1)⟩
        else
          let r := getPostsLoop oracle total fuel (cur + 1) (fails + 1)
          ⟨.progress cur :: r.events, r.totalPostsScraped, r.aborted,
           r.abortPage, r.lastScrapedPage⟩

/-- `getPosts` from `startFromPage` over a thread with `total` pages. -/
def getPosts (oracle : Nat → PageOutcome) (total startFromPage : Nat) :
    GetPostsRes :=
  getPostsLoop oracle total (total + 1 - startFromPage) startFromPage 0

/-- runner.ts:191-196 — the resume cursor decides the starting page. -/
def startPageOf (resume : Bool) (lastScrapedPage : Int) : Int :=
  if resume ∧ 0 < lastScrapedPage then lastScrapedPage else 1

/-- The pages reported through `onProgress`, in order. -/
def progressPages (events : List PageEvent) : List Nat :=
  events.filterMap (fun e => match e with
    | .progress p => some p
    | _ => none)

/-- runner.ts:230-247 — the runner persists a progress report only when
`lastScrapedPage % PAGES_PER_CHUNK == 0` (`PAGES_PER_CHUNK = 10`). -/
def checkpointPages (events : List PageEvent) : List Nat :=
  (progressPages events).filter (fun p => p % 10 = 0)

/-- The successive values written to the thread's persisted
`lastScrapedPage` during and after one `getPosts` run
(runner.ts:230-247 checkpoints, then the runner.ts:259-271 final
update). -/
def persistedCursorTrace (r : GetPostsRes) : List Int :=
  (checkpointPages r.events).map (fun p => (p : Int)) ++ [r.lastScrapedPage]

/-! ## `stripHtmlWithQuotes` / `htmlToPlainText` (shared utils)

JS `String.prototype.replace` with the `g` flag: repeated leftmost
non-overlapping matches, each replaced by a fixed string (every pattern
below matches at least one character, so the empty-match rule never
fires; it is still modelled, by emitting the character and moving on). -/

/-- Global replace: scan left to right, replacing each leftmost match. -/
def replaceScan (r : RE) (rep : List Nat) :
    Nat → Option Nat → List Nat → List Nat
  | 0, _, s => s
  | fuel+1, prev, s =>
    match s with
    | [] => []
    | c :: rest =>
      match matchAtPos r prev s with
      | some (n+1, _) =>
        rep ++ replaceScan r rep fuel (s.take (n+1)).getLast? (s.drop (n+1))
      | some (0, _) => c :: replaceScan r rep fuel (some c) rest
      | none => c :: replaceScan r rep fuel (some c) rest

def jsReplaceAll (r : RE) (rep : List Nat) (s : List Nat) : List Nat :=
  replaceScan r rep (s.length + 1) none s

/-- `/<blockquote[^>]*>[\s\S]*?<\/blockquote>/gi` applied once
(one full left-to-right global replace by the empty string). -/
def bqStep (s : List Nat) : List Nat :=
  jsReplaceAll
    (rSeq [rT "<blockquote", .star (.cls (fun n => n ≠ 62)), rCh '>',
           .lazyStar rAny, rT "</blockquote>"]) [] s

/-- `/<div[^>]*class="[^"]*quote[^"]*"[^>]*>[\s\S]*?<\/div>/gi` applied
once. -/
def divQuoteStep (s : List Nat) : List Nat :=
  jsReplaceAll
    (rSeq [rT "<div", .star (.cls (fun n => n ≠ 62)), rT "class=\"",
           .star (.cls (fun n => n ≠ 34)), rT "quote",
           .star (.cls (fun n => n ≠ 34)), rCh '"',
           .star (.cls (fun n => n ≠ 62)), rCh '>',
           .lazyStar rAny, rT "</div>"]) [] s

/-- A `do { prev = len; s = step s } while (s.len != prev)` loop: stop as
soon as an application leaves the length unchanged.  `fuel` is supplied
as `length + 1`, which suffices because each non-final application
strictly shrinks the string. -/
def quoteLoop (step : List Nat → List Nat) : Nat → List Nat → List Nat
  | 0, s => s
  | fuel+1, s =>
    let s' := step s
    if s'.length = s.length then s' else quoteLoop step fuel s'

def runQuoteLoop (step : List Nat → List Nat) (s : List Nat) : List Nat :=
  quoteLoop step (s.length + 1) s

/-- `/[^<\n]+wrote:\s*↑[^\n<]*/gi`. -/
def wroteStep (s : List Nat) : List Nat :=
  jsReplaceAll
    (rSeq [rPlus (.cls (fun n => ¬ (n = 60 ∨ n = 10))), rT "wrote:",
           .star rSp, rCh '↑', .star (.cls (fun n => ¬ (n = 10 ∨ n = 60)))])
    [] s

/-- `/<script\b[^<]*(?:(?!<\/script>)<[^<]*)*<\/script>/gi` (and the same
shape for `style`). -/
def scriptTagRE (tag : String) : RE :=
  rSeq [rCh '<', rT tag, .wb, .star (.cls (fun n => n ≠ 60)),
        .star (rSeq [.nla (rSeq [rT "</", rT tag, rCh '>']), rCh '<',
                     .star (.cls (fun n => n ≠ 60))]),
        rT "</", rT tag, rCh '>']

/-- `htmlToPlainText` (shared utils): strip script/style, turn `<br>` and
block-element closers into newlines, drop remaining tags, decode common
entities, collapse runs of spaces/tabs and blank lines, trim. -/
def htmlToPlainText (html : List Nat) : List Nat :=
  let s := jsReplaceAll (scriptTagRE "script") [] html
  let s := jsReplaceAll (scriptTagRE "style") [] s
  let s := jsReplaceAll (rSeq [rT "<br", .star rSp, .opt (rCh '/'), rCh '>'])
    (strCodes "\n") s
  let s := jsReplaceAll
    (rSeq [rT "</", .grp 1 (rAlt [rT "p", rT "div", rT "li", rT "tr",
                                  rSeq [rCh 'h', .cls (fun n => 49 ≤ n ∧ n ≤ 54)]]),
           rCh '>'])
    (strCodes "\n") s
  let s := jsReplaceAll (rSeq [rCh '<', rPlus (.cls (fun n => n ≠ 62)), rCh '>'])
    (strCodes " ") s
  let s := jsReplaceAll (rT "&nbsp;") (strCodes " ") s
  let s := jsReplaceAll (rT "&amp;") (strCodes "&") s
  let s := jsReplaceAll (rT "&lt;") (strCodes "<") s
  let s := jsReplaceAll (rT "&gt;") (strCodes ">") s
  let s := jsReplaceAll (rT "&quot;") (strCodes "\"") s
  let s := jsReplaceAll (rT "&#39;") (strCodes "'") s
  let s := jsReplaceAll (rT "&rsquo;") (strCodes "'") s
  let s := jsReplaceAll (rT "&lsquo;") (strCodes "'") s
  let s := jsReplaceAll (rT "&rdquo;") (strCodes "\"") s
  let s := jsReplaceAll (rT "&ldquo;") (strCodes "\"") s
  let s := jsReplaceAll (rT "&ndash;") (strCodes "–") s
  let s := jsReplaceAll (rT "&mdash;") (strCodes "—") s
  let s := jsReplaceAll (rPlus (.cls (fun n => n = 32 ∨ n = 9)))
    (strCodes " ") s
  let s := jsReplaceAll (rSeq [.cls (fun n => n = 10), .star rSp,
                               .cls (fun n => n = 10)]) (strCodes "\n") s
  jsTrim s

/-- The quote-stripping stage of `stripHtmlWithQuotes` (the two
replace-until-fixpoint loops followed by the "wrote:" citation
removal), i.e. the value of `cleaned` handed to `htmlToPlainText`. -/
def stripQuotesStage (html : List Nat) : List Nat :=
  wroteStep (runQuoteLoop divQuoteStep (runQuoteLoop bqStep html))

/-- `stripHtmlWithQuotes`. -/
def stripHtmlWithQuotes (html : List Nat) : List Nat :=
  htmlToPlainText (stripQuotesStage html)

/-! ## Theorems -/

/-! ### C7 — the flexible date parser's sanity window -/

theorem tryNumericDate_window (str : List Nat) (nowMs d : Int)
    (h : tryNumericDate str nowMs = some d) :
    minDateMs ≤ d * msPerDay ∧ d * msPerDay ≤ nowMs + 30 * msPerDay := by
  unfold tryNumericDate at h
  dsimp only at h
  repeat' split at h
  all_goals first
    | (obtain rfl : _ = d := Option.some.inj h
       rename_i hr
       simpa [isReasonableDate] using hr)
    | exact absurd h (by simp)

theorem tryTextDate_window (str : List Nat) (nowMs d : Int)
    (h : tryTextDate str nowMs = some d) :
    minDateMs ≤ d * msPerDay ∧ d * msPerDay ≤ nowMs + 30 * msPerDay := by
  unfold tryTextDate at h
  dsimp only at h
  repeat' split at h
  all_goals first
    | (obtain rfl : _ = d := Option.some.inj h
       rename_i hr
       simpa [isReasonableDate] using hr)
    | exact absurd h (by simp)

theorem tryUSDate_window (str : List Nat) (nowMs d : Int)
    (h : tryUSDate str nowMs = some d) :
    minDateMs ≤ d * msPerDay ∧ d * msPerDay ≤ nowMs + 30 * msPerDay := by
  unfold tryUSDate at h
  dsimp only at h
  repeat' split at h
  all_goals first
    | (obtain rfl : _ = d := Option.some.inj h
       rename_i hr
       simpa [isReasonableDate] using hr)
    | exact absurd h (by simp)

theorem parseFlexibleDate_window (s : List Nat) (nowMs d : Int)
    (h : parseFlexibleDate s nowMs = some d) :
    minDateMs ≤ d * msPerDay ∧ d * msPerDay ≤ nowMs + 30 * msPerDay := by
  unfold parseFlexibleDate at h
  dsimp only at h
  split at h
  · next hn => exact tryNumericDate_window _ _ _ (hn.trans h)
  · split at h
    · next ht => exact tryTextDate_window _ _ _ (ht.trans h)
    · exact tryUSDate_window _ _ _ h

/-- C7: every date `parseFlexibleDate` returns lies between 1 Jan 2010
and 30 days past the current clock reading, and consequently a parsed
candidate falling outside that window is never returned (each format
branch is guarded by `isReasonableDate`; an out-of-window candidate is
treated as unparsed by that branch). -/
theorem C7_date_window (s : List Nat) (nowMs d : Int)
    (h : parseFlexibleDate s nowMs = some d) :
    (minDateMs ≤ d * msPerDay ∧ d * msPerDay ≤ nowMs + 30 * msPerDay) ∧
    ∀ x : Int, (x * msPerDay < minDateMs ∨
        nowMs + 30 * msPerDay < x * msPerDay) →
      parseFlexibleDate s nowMs ≠ some x := by
  refine ⟨parseFlexibleDate_window s nowMs d h, ?_⟩
  intro x hx hc
  have hw := parseFlexibleDate_window s nowMs x hc
  rcases hx with hx | hx
  · exact absurd hw.1 (not_le.mpr hx)
  · exact absurd hw.2 (not_le.mpr hx)

set_option maxRecDepth 40000 in
theorem C7_witness :
    parseFlexibleDate (strCodes "19/12/2016")
        (daysFromCivil 2026 10 11 * msPerDay) = some 17154 ∧
    (minDateMs ≤ 17154 * msPerDay ∧
      17154 * msPerDay ≤ daysFromCivil 2026 10 11 * msPerDay + 30 * msPerDay) :=
  ⟨by decide,
   (C7_date_window (strCodes "19/12/2016") (daysFromCivil 2026 10 11 * msPerDay)
      17154 (by decide)).1⟩

/-! ### C1 — the spec's worked example -/

/-- The example body from the spec (literal newlines). -/
def specExampleBody : List Nat :=
  strCodes "Applied for ILR Route : Set(O)\nDate application sent : 19/12/2016\nApproval/Refusal Received :23/05/2017\nBRP Card Received 24/05/2017"

/-- A fixed evaluation clock (11 Oct 2026, UTC midnight); any clock from
mid-2017 on gives the same result, as both dates then pass
`isReasonableDate`. -/
def specExampleNow : Int := daysFromCivil 2026 10 11 * msPerDay

set_option maxRecDepth 100000 in
theorem specExample_eval :
    (extractCaseData specExampleBody specExampleNow).applicationRoute
        = some (strCodes "SET(O)") ∧
    (extractCaseData specExampleBody specExampleNow).applicationDate
        = some (daysFromCivil 2016 12 19) ∧
    (extractCaseData specExampleBody specExampleNow).decisionDate
        = some (daysFromCivil 2017 5 23) ∧
    (extractCaseData specExampleBody specExampleNow).waitingDays = some 155 ∧
    (extractCaseData specExampleBody specExampleNow).outcome
        = some Outcome.approved ∧
    (extractCaseData specExampleBody specExampleNow).confidenceN = 16 := by
  decide

/-- C1: on the spec's example body, `extractCaseData` yields route
`SET(O)`, application date 19 Dec 2016, decision date 23 May 2017,
waiting days 155, outcome approved, and confidence 0.8 ≥ 0.7. -/
theorem C1_example_extraction :
    (extractCaseData specExampleBody specExampleNow).applicationRoute
        = some (strCodes "SET(O)") ∧
    (extractCaseData specExampleBody specExampleNow).applicationDate
        = some (daysFromCivil 2016 12 19) ∧
    (extractCaseData specExampleBody specExampleNow).decisionDate
        = some (daysFromCivil 2017 5 23) ∧
    (extractCaseData specExampleBody specExampleNow).waitingDays = some 155 ∧
    (extractCaseData specExampleBody specExampleNow).outcome
        = some Outcome.approved ∧
    (7 : ℚ) / 10 ≤ confidenceVal (extractCaseData specExampleBody specExampleNow) := by
  obtain ⟨h1, h2, h3, h4, h5, h6⟩ := specExample_eval
  refine ⟨h1, h2, h3, h4, h5, ?_⟩
  rw [confidenceVal, h6]
  norm_num

/-! ### C8 - the confidence formula -/

theorem finalize_confidenceN (st : ExtractState) :
    (finalize st).confidenceN = min st.score2 20 := by
  unfold finalize
  dsimp only
  split <;> split <;> rfl

/-- C8: the confidence `extractCaseData` returns is exactly the
accumulated evidence score divided by 10 and capped at 1, and in
particular always lies in `[0, 1]`. -/
theorem C8_confidence_formula (content : List Nat) (nowMs : Int) :
    confidenceVal (extractCaseData content nowMs) =
      min (scoreVal (extractFinalState content nowMs) / 10) 1 ∧
    0 ≤ confidenceVal (extractCaseData content nowMs) ∧
    confidenceVal (extractCaseData content nowMs) ≤ 1 := by
  have hN : (extractCaseData content nowMs).confidenceN
      = min (extractFinalState content nowMs).score2 20 :=
    finalize_confidenceN _
  refine ⟨?_, ?_, ?_⟩
  · rw [confidenceVal, hN, scoreVal, Nat.cast_min]
    rw [← min_div_div_right (by norm_num : (0:ℚ) ≤ 20)]
    norm_num [div_div]
  · rw [confidenceVal]
    positivity
  · rw [confidenceVal, hN]
    have h20 : ((min (extractFinalState content nowMs).score2 20 : ℕ) : ℚ) ≤ 20 := by
      exact_mod_cast Nat.cast_le.mpr (min_le_right _ _)
    linarith

/-! ### C2 - waiting-days validity -/

theorem applyRoute_fields (cap : List Nat) (st : ExtractState) :
    (applyRoute cap st).res.waitingDays = st.res.waitingDays ∧
    (applyRoute cap st).res.decisionDate = st.res.decisionDate ∧
    (applyRoute cap st).res.applicationDate = st.res.applicationDate ∧
    (applyRoute cap st).notes = st.notes := by
  unfold applyRoute
  dsimp only
  split_ifs <;> exact ⟨rfl, rfl, rfl, rfl⟩

theorem routeLoop_fields (pats : List RE) (c : List Nat) (st : ExtractState) :
    (routeLoop pats c st).res.waitingDays = st.res.waitingDays ∧
    (routeLoop pats c st).res.decisionDate = st.res.decisionDate ∧
    (routeLoop pats c st).res.applicationDate = st.res.applicationDate ∧
    (routeLoop pats c st).notes = st.notes := by
  induction pats with
  | nil => exact ⟨rfl, rfl, rfl, rfl⟩
  | cons p rest ih =>
    unfold routeLoop
    cases reGroup p 1 c with
    | none => exact ih
    | some cap =>
      dsimp only
      split
      · exact applyRoute_fields cap st
      · exact ih

theorem appDatePhase_fields (c : List Nat) (t : Int) (st : ExtractState) :
    (appDatePhase c t st).res.waitingDays = st.res.waitingDays ∧
    (appDatePhase c t st).res.decisionDate = st.res.decisionDate ∧
    (appDatePhase c t st).notes = st.notes := by
  unfold appDatePhase
  cases dateLoop applicationDatePatterns c t <;> exact ⟨rfl, rfl, rfl⟩

theorem bioPhase_fields (c : List Nat) (t : Int) (st : ExtractState) :
    (bioPhase c t st).res.waitingDays = st.res.waitingDays ∧
    (bioPhase c t st).res.decisionDate = st.res.decisionDate ∧
    (bioPhase c t st).res.applicationDate = st.res.applicationDate ∧
    (bioPhase c t st).notes = st.notes := by
  unfold bioPhase
  cases dateLoop biometricsPatterns c t <;> exact ⟨rfl, rfl, rfl, rfl⟩

theorem decisionPhase_fields (c : List Nat) (t : Int) (st : ExtractState) :
    (decisionPhase c t st).res.waitingDays = st.res.waitingDays ∧
    (decisionPhase c t st).res.applicationDate = st.res.applicationDate ∧
    (decisionPhase c t st).notes = st.notes := by
  unfold decisionPhase
  cases dateLoop decisionPatterns c t <;> exact ⟨rfl, rfl, rfl⟩

theorem outcomePhase_fields (c : List Nat) (st : ExtractState) :
    (outcomePhase c st).res.waitingDays = st.res.waitingDays ∧
    (outcomePhase c st).res.decisionDate = st.res.decisionDate ∧
    (outcomePhase c st).res.applicationDate = st.res.applicationDate ∧
    (outcomePhase c st).notes = st.notes := by
  unfold outcomePhase
  dsimp only
  split_ifs <;> exact ⟨rfl, rfl, rfl, rfl⟩

theorem centerLoop_fields (pats : List (RE × List Nat)) (c : List Nat)
    (st : ExtractState) :
    (centerLoop pats c st).res.waitingDays = st.res.waitingDays ∧
    (centerLoop pats c st).res.decisionDate = st.res.decisionDate ∧
    (centerLoop pats c st).res.applicationDate = st.res.applicationDate ∧
    (centerLoop pats c st).notes = st.notes := by
  induction pats with
  | nil => exact ⟨rfl, rfl, rfl, rfl⟩
  | cons p rest ih =>
    obtain ⟨pat, ctr⟩ := p
    unfold centerLoop
    split
    · exact ⟨rfl, rfl, rfl, rfl⟩
    · exact ih

theorem centerPhase_fields (c : List Nat) (st : ExtractState) :
    (centerPhase c st).res.waitingDays = st.res.waitingDays ∧
    (centerPhase c st).res.decisionDate = st.res.decisionDate ∧
    (centerPhase c st).res.applicationDate = st.res.applicationDate ∧
    (centerPhase c st).notes = st.notes :=
  centerLoop_fields centerPatterns c st

theorem fallbackRoutePhase_fields (c : List Nat) (st : ExtractState) :
    (fallbackRoutePhase c st).res.waitingDays = st.res.waitingDays ∧
    (fallbackRoutePhase c st).res.decisionDate = st.res.decisionDate ∧
    (fallbackRoutePhase c st).res.applicationDate = st.res.applicationDate ∧
    (fallbackRoutePhase c st).notes = st.notes := by
  unfold fallbackRoutePhase
  split_ifs <;> exact ⟨rfl, rfl, rfl, rfl⟩

theorem typePhase_fields (c : List Nat) (st : ExtractState) :
    (typePhase c st).res.waitingDays = st.res.waitingDays ∧
    (typePhase c st).res.decisionDate = st.res.decisionDate ∧
    (typePhase c st).res.applicationDate = st.res.applicationDate ∧
    (typePhase c st).notes = st.notes := by
  unfold typePhase
  split_ifs <;> exact ⟨rfl, rfl, rfl, rfl⟩

theorem notesPhase_fields (c : List Nat) (st : ExtractState) :
    (notesPhase c st).res.waitingDays = st.res.waitingDays ∧
    (notesPhase c st).res.decisionDate = st.res.decisionDate ∧
    (notesPhase c st).res.applicationDate = st.res.applicationDate ∧
    ∀ x ∈ st.notes, x ∈ (notesPhase c st).notes := by
  unfold notesPhase
  dsimp only
  split_ifs <;> refine ⟨rfl, rfl, rfl, ?_⟩ <;> intro x hx <;> simp [hx]

theorem finalize_fields (st : ExtractState) :
    (finalize st).waitingDays = st.res.waitingDays ∧
    (finalize st).decisionDate = st.res.decisionDate ∧
    (finalize st).applicationDate = st.res.applicationDate := by
  unfold finalize
  dsimp only
  split <;> split <;> exact ⟨rfl, rfl, rfl⟩

theorem mem_infix_joinSep (sep x : List Nat) :
    ∀ l : List (List Nat), x ∈ l → x <:+: joinSep sep l := by
  intro l
  induction l with
  | nil => intro h; cases h
  | cons y rest ih =>
    intro hx
    cases rest with
    | nil =>
      simp only [List.mem_singleton] at hx
      subst hx
      exact ⟨[], [], by simp [joinSep]⟩
    | cons z rest' =>
      rcases List.mem_cons.mp hx with rfl | hx'
      · exact ⟨[], sep ++ joinSep sep (z :: rest'), by simp [joinSep]⟩
      · obtain ⟨s, t, hst⟩ := ih hx'
        exact ⟨y ++ sep ++ s, t, by simp [joinSep, ← hst]⟩

theorem finalize_notes_infix (st : ExtractState) (x : List Nat)
    (hx : x ∈ st.notes) :
    ∃ ns, (finalize st).extractionNotes = some ns ∧ x <:+: ns := by
  have hne : st.notes ≠ [] := by
    intro h; rw [h] at hx; cases hx
  have hbase : x <:+: joinSep (strCodes "; ") st.notes :=
    mem_infix_joinSep _ _ _ hx
  unfold finalize
  dsimp only
  rw [if_pos hne]
  split
  · refine ⟨_, rfl, ?_⟩
    obtain ⟨s, t, hst⟩ := hbase
    exact ⟨s, t ++ strCodes "; " ++
      strCodes "Low confidence extraction - manual review recommended",
      by simp [← hst]⟩
  · exact ⟨_, rfl, hbase⟩

/-- C2: whenever both an application date and a decision date were found
and parsed, `waitingDays` is set if and only if the day difference
`decisionDate - applicationDate` lies strictly between 0 and 1000; when
it does not, `waitingDays` is absent and the note "Calculated waiting
days seem invalid" is attached to the extraction notes. -/
theorem C2_waitingDays_iff (content : List Nat) (nowMs : Int) (a d : Int)
    (ha : (extractCaseData content nowMs).applicationDate = some a)
    (hd : (extractCaseData content nowMs).decisionDate = some d) :
    (0 < d - a ∧ d - a < 1000 →
        (extractCaseData content nowMs).waitingDays = some (d - a)) ∧
    (¬(0 < d - a ∧ d - a < 1000) →
        (extractCaseData content nowMs).waitingDays = none ∧
        ∃ ns, (extractCaseData content nowMs).extractionNotes = some ns ∧
          strCodes "Calculated waiting days seem invalid" <:+: ns) := by
  -- the state entering the waiting-days computation
  set st0 : ExtractState :=
    decisionPhase content nowMs (bioPhase content nowMs
      (appDatePhase content nowMs (routePhase content {}))) with hst0
  -- and the state just after it
  set stW : ExtractState := waitingPhase st0 with hstW
  have hres : extractCaseData content nowMs =
      finalize (notesPhase content (typePhase content (fallbackRoutePhase
        content (centerPhase content (outcomePhase content stW))))) := rfl
  -- transport of the post-waiting phases
  obtain ⟨hfW, hfD, hfA⟩ := finalize_fields (notesPhase content (typePhase
    content (fallbackRoutePhase content (centerPhase content
      (outcomePhase content stW)))))
  obtain ⟨hnW, hnD, hnA, hnN⟩ := notesPhase_fields content (typePhase content
    (fallbackRoutePhase content (centerPhase content (outcomePhase content stW))))
  obtain ⟨htW, htD, htA, htN⟩ := typePhase_fields content
    (fallbackRoutePhase content (centerPhase content (outcomePhase content stW)))
  obtain ⟨hbW, hbD, hbA, hbN⟩ := fallbackRoutePhase_fields content
    (centerPhase content (outcomePhase content stW))
  obtain ⟨hcW, hcD, hcA, hcN⟩ := centerPhase_fields content
    (outcomePhase content stW)
  obtain ⟨hoW, hoD, hoA, hoN⟩ := outcomePhase_fields content stW
  have hWapp : (extractCaseData content nowMs).applicationDate
      = stW.res.applicationDate := by
    rw [hres, hfA, hnA, htA]
    exact hbA.trans (hcA.trans hoA)
  have hWdec : (extractCaseData content nowMs).decisionDate
      = stW.res.decisionDate := by
    rw [hres, hfD, hnD, htD]
    exact hbD.trans (hcD.trans hoD)
  have hWwd : (extractCaseData content nowMs).waitingDays
      = stW.res.waitingDays := by
    rw [hres, hfW, hnW, htW]
    exact hbW.trans (hcW.trans hoW)
  -- notes transport: anything in stW.notes reaches the final notes
  have hnotes : ∀ x ∈ stW.notes,
      ∃ ns, (extractCaseData content nowMs).extractionNotes = some ns ∧
        x <:+: ns := by
    intro x hx
    rw [hres]
    refine finalize_notes_infix _ x ?_
    refine hnN x ?_
    rw [htN]
    rw [show (fallbackRoutePhase content (centerPhase content
      (outcomePhase content stW))).notes = stW.notes from
        hbN.trans (hcN.trans hoN)]
    exact hx
  -- dates seen by the waiting phase
  have hA0 : st0.res.applicationDate = some a := by
    have h1 : stW.res.applicationDate = st0.res.applicationDate := by
      rw [hstW]
      unfold waitingPhase
      split
      · dsimp only; split <;> rfl
      · rfl
    rw [← h1, ← hWapp]; exact ha
  have hD0 : st0.res.decisionDate = some d := by
    have h1 : stW.res.decisionDate = st0.res.decisionDate := by
      rw [hstW]
      unfold waitingPhase
      split
      · dsimp only; split <;> rfl
      · rfl
    rw [← h1, ← hWdec]; exact hd
  -- pre-waiting waitingDays is still unset
  have hwd0 : st0.res.waitingDays = none := by
    rw [hst0]
    obtain ⟨h1, _, _⟩ := decisionPhase_fields content nowMs
      (bioPhase content nowMs (appDatePhase content nowMs (routePhase content {})))
    rw [h1]
    obtain ⟨h2, _, _, _⟩ := bioPhase_fields content nowMs
      (appDatePhase content nowMs (routePhase content {}))
    rw [h2]
    obtain ⟨h3, _, _⟩ := appDatePhase_fields content nowMs (routePhase content {})
    rw [h3]
    obtain ⟨h4, _, _, _⟩ := routeLoop_fields routePatterns content {}
    exact h4
  -- evaluate the waiting phase
  have hWeq : stW = (if 0 < d - a ∧ d - a < 1000 then
      { st0 with res := { st0.res with waitingDays := some (d - a) },
                 score2 := st0.score2 + 4 }
    else
      { st0 with notes :=
          st0.notes ++ [strCodes "Calculated waiting days seem invalid"] }) := by
    rw [hstW]
    unfold waitingPhase
    rw [hA0, hD0]
  constructor
  · intro hrange
    rw [hWwd, hWeq, if_pos hrange]
  · intro hrange
    rw [hWeq, if_neg hrange] at hWwd hnotes
    constructor
    · rw [hWwd]; exact hwd0
    · exact hnotes (strCodes "Calculated waiting days seem invalid") (by simp)

/-- Input for the C2 witness: both dates parse, 366 days apart. -/
def c2exBody : List Nat :=
  strCodes "applied : 01/01/2020\napproved : 01/01/2021"

set_option maxRecDepth 100000 in
theorem C2_witness :
    (extractCaseData c2exBody specExampleNow).applicationDate
        = some (daysFromCivil 2020 1 1) ∧
    (extractCaseData c2exBody specExampleNow).decisionDate
        = some (daysFromCivil 2021 1 1) ∧
    (extractCaseData c2exBody specExampleNow).waitingDays
        = some (daysFromCivil 2021 1 1 - daysFromCivil 2020 1 1) := by
  have h1 : (extractCaseData c2exBody specExampleNow).applicationDate
      = some (daysFromCivil 2020 1 1) := by decide
  have h2 : (extractCaseData c2exBody specExampleNow).decisionDate
      = some (daysFromCivil 2021 1 1) := by decide
  exact ⟨h1, h2,
    (C2_waitingDays_iff c2exBody specExampleNow _ _ h1 h2).1 (by decide)⟩

/-! ### C6 - determinism and the clock -/

theorem dateLoop_congr (pats : List RE) (c : List Nat) (t1 t2 : Int)
    (h : ∀ s, parseFlexibleDate s t1 = parseFlexibleDate s t2) :
    dateLoop pats c t1 = dateLoop pats c t2 := by
  induction pats with
  | nil => rfl
  | cons p rest ih =>
    unfold dateLoop
    rw [ih]
    cases reGroup p 1 c with
    | none => rfl
    | some cap =>
      dsimp only
      rw [h cap]

theorem appDatePhase_congr (c : List Nat) (t1 t2 : Int)
    (h : ∀ s, parseFlexibleDate s t1 = parseFlexibleDate s t2) :
    appDatePhase c t1 = appDatePhase c t2 := by
  funext st
  unfold appDatePhase
  rw [dateLoop_congr _ _ _ _ h]

theorem bioPhase_congr (c : List Nat) (t1 t2 : Int)
    (h : ∀ s, parseFlexibleDate s t1 = parseFlexibleDate s t2) :
    bioPhase c t1 = bioPhase c t2 := by
  funext st
  unfold bioPhase
  rw [dateLoop_congr _ _ _ _ h]

theorem decisionPhase_congr (c : List Nat) (t1 t2 : Int)
    (h : ∀ s, parseFlexibleDate s t1 = parseFlexibleDate s t2) :
    decisionPhase c t1 = decisionPhase c t2 := by
  funext st
  unfold decisionPhase
  rw [dateLoop_congr _ _ _ _ h]

/-- C6 (amended): `extractCaseData` is a pure function of its input text
*and the clock reading at the call*: the current time enters only
through `parseFlexibleDate`'s `isReasonableDate` window, so two
evaluations between which no candidate date substring parses differently
return identical results.  Unconditional equality across arbitrary times
fails — see `C6_counterexample`. -/
theorem C6_time_congruence (c : List Nat) (t1 t2 : Int)
    (h : ∀ s, parseFlexibleDate s t1 = parseFlexibleDate s t2) :
    extractCaseData c t1 = extractCaseData c t2 := by
  unfold extractCaseData extractFinalState
  rw [appDatePhase_congr c t1 t2 h, bioPhase_congr c t1 t2 h,
      decisionPhase_congr c t1 t2 h]

/-- An input whose only date (1 Jan 2027) is more than 30 days past an
October 2026 clock but fine for a June 2027 clock. -/
def c6Body : List Nat := strCodes "applied : 01/01/2027"

set_option maxRecDepth 100000 in
/-- C6 counterexample: the same input evaluated at two different times
yields different results (the application date is rejected by the
30-days-into-the-future guard at the earlier time only), so
`extractCaseData` is not a function of the input and rule version
alone. -/
theorem C6_counterexample :
    extractCaseData c6Body (daysFromCivil 2026 10 11 * msPerDay) ≠
    extractCaseData c6Body (daysFromCivil 2027 6 1 * msPerDay) := by
  decide

theorem C6_witness :
    (∀ s, parseFlexibleDate s 0 = parseFlexibleDate s 0) ∧
    extractCaseData (strCodes "applied : 01/01/2020") 0 =
      extractCaseData (strCodes "applied : 01/01/2020") 0 :=
  ⟨fun _ => rfl,
   C6_time_congruence (strCodes "applied : 01/01/2020") 0 0 (fun _ => rfl)⟩

/-! ### C9 - shape of hashContent -/

theorem toHexBytes_length (bs : List Nat) :
    (toHexBytes bs).length = 2 * bs.length := by
  induction bs with
  | nil => rfl
  | cons b rest ih =>
    simp [toHexBytes] at ih ⊢
    omega

theorem digestBytes_length (h : Hash8) : (digestBytes h).length = 32 := rfl

theorem hexDig_range (n : Nat) :
    (48 ≤ hexDig n ∧ hexDig n ≤ 57) ∨ (97 ≤ hexDig n ∧ hexDig n ≤ 102) := by
  unfold hexDig
  split
  · left; omega
  · right
    have : n % 16 < 16 := Nat.mod_lt _ (by omega)
    omega

theorem mem_toHexBytes (bs : List Nat) (c : Nat) (hc : c ∈ toHexBytes bs) :
    ∃ n, c = hexDig n := by
  induction bs with
  | nil => cases hc
  | cons b rest ih =>
    simp only [toHexBytes, List.map_cons, List.flatten_cons, List.mem_append,
      List.mem_cons, List.mem_singleton] at hc
    rcases hc with (rfl | rfl | h) | h
    · exact ⟨b / 16, rfl⟩
    · exact ⟨b, rfl⟩
    · cases h
    · exact ih (by simpa [toHexBytes] using h)

/-- C9: `hashContent` always returns exactly 32 characters, each a
lowercase hexadecimal digit (the first 128 bits of the SHA-256 digest in
hex), and equal inputs yield equal hashes. -/
theorem C9_hashContent_shape (s : List Nat) :
    (hashContent s).length = 32 ∧
    (∀ c ∈ hashContent s,
      (48 ≤ c ∧ c ≤ 57) ∨ (97 ≤ c ∧ c ≤ 102)) ∧
    (∀ t, s = t → hashContent s = hashContent t) := by
  refine ⟨?_, ?_, fun t ht => ht ▸ rfl⟩
  · rw [hashContent, List.length_take, toHexBytes_length, digestBytes_length]
    decide
  · intro c hc
    have hc' : c ∈ toHexBytes (digestBytes (sha256 (utf8Bytes s))) :=
      List.take_subset _ _ hc
    obtain ⟨n, rfl⟩ := mem_toHexBytes _ _ hc'
    exact hexDig_range n

set_option maxRecDepth 100000 in
/-- The SHA-256 implementation against the FIPS 180-4 test vector, and
the concrete 128-bit-prefix hash of "abc". -/
theorem hashContent_abc :
    hashContent (strCodes "abc") = strCodes "ba7816bf8f01cfea414140de5dae2223" := by
  decide

theorem C9_witness :
    (hashContent (strCodes "abc")).length = 32 ∧
    hashContent (strCodes "abc") = hashContent (strCodes "abc") :=
  ⟨(C9_hashContent_shape (strCodes "abc")).1,
   (C9_hashContent_shape (strCodes "abc")).2.2 _ rfl⟩

/-! ### C3 - unchanged posts are skipped entirely -/

theorem classify_new_spec (ex : ExistingPosts) (l : List ScrapedPost) :
    ∀ q ∈ (classifyPosts ex l).1, List.lookup q.externalId ex = none := by
  induction l with
  | nil => intro q hq; cases hq
  | cons p rest ih =>
    intro q hq
    unfold classifyPosts at hq
    dsimp only at hq
    revert hq
    split
    · next hl =>
      intro hq
      rcases List.mem_cons.mp hq with rfl | hq'
      · exact hl
      · exact ih q hq'
    · next h hl =>
      intro hq
      split at hq
      · exact ih q hq
      · exact ih q hq

theorem classify_changed_spec (ex : ExistingPosts) (l : List ScrapedPost) :
    ∀ q ∈ (classifyPosts ex l).2,
      ∃ h, List.lookup q.externalId ex = some h ∧ h ≠ hashContent q.content := by
  induction l with
  | nil => intro q hq; cases hq
  | cons p rest ih =>
    intro q hq
    unfold classifyPosts at hq
    dsimp only at hq
    revert hq
    split
    · intro hq
      exact ih q hq
    · next h hl =>
      intro hq
      split at hq
      · next hne =>
        rcases List.mem_cons.mp hq with rfl | hq'
        · exact ⟨_, hl, hne⟩
        · exact ih q hq'
      · exact ih q hq

theorem mem_chunkF (n : Nat) :
    ∀ (fuel : Nat) (l : List α) (c : List α), c ∈ chunkF n fuel l →
      ∀ x ∈ c, x ∈ l := by
  intro fuel
  induction fuel with
  | zero => intro l c hc; cases hc
  | succ f ih =>
    intro l c hc x hx
    cases l with
    | nil => cases hc
    | cons y ys =>
      unfold chunkF at hc
      rcases List.mem_cons.mp hc with rfl | hc'
      · exact List.take_subset _ _ hx
      · exact List.drop_subset _ _ (ih _ _ hc' x hx)

theorem mem_chunks (n : Nat) (l : List α) (c : List α) (hc : c ∈ chunks n l) :
    ∀ x ∈ c, x ∈ l :=
  mem_chunkF n _ l c hc

theorem newBatchEffects_origin (t : Int) (batch : List ScrapedPost)
    (e : Effect) (he : e ∈ newBatchEffects t batch) : e.origin ∈ batch := by
  unfold newBatchEffects at he
  rcases List.mem_append.mp he with h | h
  · rcases List.mem_append.mp h with h' | h'
    · obtain ⟨p, hp, rfl⟩ := List.mem_map.mp h'
      exact hp
    · obtain ⟨p, hp, rfl⟩ := List.mem_map.mp h'
      exact hp
  · obtain ⟨p, hp, hpe⟩ := List.mem_filterMap.mp h
    revert hpe
    dsimp only
    split
    · intro hpe
      obtain rfl := Option.some.inj hpe
      exact hp
    · intro hpe; cases hpe

theorem changedEffects_origin (t : Int) (p : ScrapedPost)
    (e : Effect) (he : e ∈ changedEffects t p) : e.origin = p := by
  unfold changedEffects at he
  rcases List.mem_append.mp he with h | h
  · rcases List.mem_cons.mp h with rfl | h'
    · rfl
    · rcases List.mem_cons.mp h' with rfl | h''
      · rfl
      · cases h''
  · revert h
    split
    · intro h
      rcases List.mem_singleton.mp h with rfl
      rfl
    · intro h; cases h

theorem effects_origin (ex : ExistingPosts) (posts : List ScrapedPost)
    (t : Int) (e : Effect) (he : e ∈ processPostsEffects ex posts t) :
    e.origin ∈ (classifyPosts ex posts).1 ∨
    e.origin ∈ (classifyPosts ex posts).2 := by
  unfold processPostsEffects at he
  dsimp only at he
  rcases List.mem_append.mp he with h | h
  · left
    obtain ⟨blk, hblk, hblke⟩ := List.mem_flatten.mp h
    obtain ⟨c, hc, rfl⟩ := List.mem_map.mp hblk
    exact mem_chunks _ _ _ hc _ (newBatchEffects_origin _ _ _ hblke)
  · right
    obtain ⟨blk, hblk, hblke⟩ := List.mem_flatten.mp h
    obtain ⟨p, hp, rfl⟩ := List.mem_map.mp hblk
    rw [changedEffects_origin _ _ _ hblke]
    exact hp

/-- C3: a re-ingested post whose externalId is already persisted with an
equal content hash is classified as unchanged — it lands in neither the
new-posts nor the changed-posts set — and no database write and no
extraction-engine invocation of this call originates from it. -/
theorem C3_unchanged_no_write (ex : ExistingPosts) (posts : List ScrapedPost)
    (t : Int) (p : ScrapedPost)
    (hlook : List.lookup p.externalId ex = some (hashContent p.content)) :
    p ∉ (classifyPosts ex posts).1 ∧
    p ∉ (classifyPosts ex posts).2 ∧
    ∀ e ∈ processPostsEffects ex posts t, e.origin ≠ p := by
  have hnew : p ∉ (classifyPosts ex posts).1 := by
    intro hp
    have := classify_new_spec ex posts p hp
    rw [hlook] at this
    cases this
  have hch : p ∉ (classifyPosts ex posts).2 := by
    intro hp
    obtain ⟨h, hl, hne⟩ := classify_changed_spec ex posts p hp
    rw [hlook] at hl
    exact hne (Option.some.inj hl).symm
  refine ⟨hnew, hch, fun e he hep => ?_⟩
  rcases effects_origin ex posts t e he with h | h
  · exact hnew (hep ▸ h)
  · exact hch (hep ▸ h)

/-- The concrete post used in the C3 witness. -/
def c3Post : ScrapedPost :=
  ⟨strCodes "p12345", strCodes "Applied for ILR Route : Set(O), approved!"⟩

theorem C3_witness :
    List.lookup c3Post.externalId
        [(c3Post.externalId, hashContent c3Post.content)]
      = some (hashContent c3Post.content) ∧
    ∀ e ∈ processPostsEffects
        [(c3Post.externalId, hashContent c3Post.content)] [c3Post] 0,
      e.origin ≠ c3Post := by
  have hlook : List.lookup c3Post.externalId
      [(c3Post.externalId, hashContent c3Post.content)]
      = some (hashContent c3Post.content) := by
    simp [List.lookup]
  exact ⟨hlook,
    (C3_unchanged_no_write [(c3Post.externalId, hashContent c3Post.content)]
      [c3Post] 0 c3Post hlook).2.2⟩

/-! ### C5 - the consecutive-failure ceiling -/

theorem not_failed_of_success (oracle : Nat → PageOutcome) (j n : Nat)
    (h : oracle j = .posts (n + 1)) : ¬ failedPage oracle j := by
  intro hf
  rcases hf with hf | hf <;> rw [h] at hf <;> simp at hf

theorem getPostsLoop_abort_spec (oracle : Nat → PageOutcome) (total start : Nat) :
    ∀ (fuel cur fails : Nat),
      start + fails ≤ cur → fails < 5 →
      (∀ j, cur - fails ≤ j → j < cur → failedPage oracle j) →
      (cur - fails = start ∨ ¬ failedPage oracle (cur - fails - 1)) →
      (getPostsLoop oracle total fuel cur fails).aborted = true →
      cur ≤ (getPostsLoop oracle total fuel cur fails).abortPage ∧
      (getPostsLoop oracle total fuel cur fails).abortPage ≤ total ∧
      (getPostsLoop oracle total fuel cur fails).lastScrapedPage =
        ((getPostsLoop oracle total fuel cur fails).abortPage : Int) - 5 ∧
      (∀ j, (getPostsLoop oracle total fuel cur fails).abortPage - 4 ≤ j →
        j ≤ (getPostsLoop oracle total fuel cur fails).abortPage →
        failedPage oracle j) ∧
      ((getPostsLoop oracle total fuel cur fails).abortPage - 4 = start ∨
        ¬ failedPage oracle
          ((getPostsLoop oracle total fuel cur fails).abortPage - 5)) ∧
      (∀ e ∈ (getPostsLoop oracle total fuel cur fails).events,
        e.page ≤ (getPostsLoop oracle total fuel cur fails).abortPage) := by
  intro fuel
  induction fuel with
  | zero =>
    intro cur fails _ _ _ _ habort
    simp [getPostsLoop] at habort
  | succ f ih =>
    intro cur fails hsf hf5 hfail hgood habort
    rw [getPostsLoop] at habort ⊢
    by_cases hct : total < cur
    · rw [if_pos hct] at habort
      simp at habort
    rw [if_neg hct] at habort ⊢
    cases ho : oracle cur with
    | posts n =>
      cases n with
      | zero =>
        rw [ho] at habort
        dsimp only at habort ⊢
        by_cases hab : 5 ≤ fails + 1
        · rw [if_pos hab] at habort ⊢
          have hfeq : fails = 4 := by omega
          have hfp : failedPage oracle cur := Or.inr ho
          refine ⟨le_refl _, by dsimp only; omega, ?_, ?_, ?_, ?_⟩
          · dsimp only
            subst hfeq
            push_cast
            ring
          · intro j hj1 hj2
            dsimp only at hj1 hj2
            rcases Nat.lt_or_ge j cur with hlt | hge
            · exact hfail j (by omega) hlt
            · have : j = cur := by omega
              subst this
              exact hfp
          · dsimp only
            rcases hgood with hg | hg
            · left; omega
            · right
              rwa [show cur - 5 = cur - fails - 1 from by omega]
          · intro e he
            simp at he
        · rw [if_neg hab] at habort ⊢
          dsimp only at habort ⊢
          have hfp : failedPage oracle cur := Or.inr ho
          have hrec := ih (cur + 1) (fails + 1) (by omega) (by omega)
            (by
              intro j hj1 hj2
              rcases Nat.lt_or_ge j cur with hlt | hge
              · exact hfail j (by omega) hlt
              · have : j = cur := by omega
                subst this
                exact hfp)
            (by
              rcases hgood with hg | hg
              · left; omega
              · right
                rwa [show cur + 1 - (fails + 1) - 1 = cur - fails - 1 from by omega])
            habort
          obtain ⟨h1, h2, h3, h4, h5, h6⟩ := hrec
          refine ⟨by omega, h2, h3, h4, h5, ?_⟩
          intro e he
          rcases List.mem_cons.mp he with rfl | he'
          · dsimp [PageEvent.page]; omega
          · exact h6 e he'
      | succ m =>
        rw [ho] at habort
        dsimp only at habort ⊢
        have hrec := ih (cur + 1) 0 (by omega) (by omega)
          (by intro j hj1 hj2; omega)
          (by
            right
            rw [show cur + 1 - 0 - 1 = cur from by omega]
            exact not_failed_of_success oracle cur m ho)
          habort
        obtain ⟨h1, h2, h3, h4, h5, h6⟩ := hrec
        refine ⟨by omega, h2, h3, h4, h5, ?_⟩
        intro e he
        rcases List.mem_cons.mp he with rfl | he'
        · dsimp [PageEvent.page]; omega
        · rcases List.mem_cons.mp he' with rfl | he''
          · dsimp [PageEvent.page]; omega
          · exact h6 e he''
    | err =>
      rw [ho] at habort
      dsimp only at habort ⊢
      by_cases hab : 5 ≤ fails + 1
      · rw [if_pos hab] at habort ⊢
        have hfeq : fails = 4 := by omega
        have hfp : failedPage oracle cur := Or.inl ho
        refine ⟨le_refl _, by dsimp only; omega, ?_, ?_, ?_, ?_⟩
        · dsimp only
          subst hfeq
          push_cast
          ring
        · intro j hj1 hj2
          dsimp only at hj1 hj2
          rcases Nat.lt_or_ge j cur with hlt | hge
          · exact hfail j (by omega) hlt
          · have : j = cur := by omega
            subst this
            exact hfp
        · dsimp only
          rcases hgood with hg | hg
          · left; omega
          · right
            rwa [show cur - 5 = cur - fails - 1 from by omega]
        · intro e he
          simp at he
      · rw [if_neg hab] at habort ⊢
        dsimp only at habort ⊢
        have hfp : failedPage oracle cur := Or.inl ho
        have hrec := ih (cur + 1) (fails + 1) (by omega) (by omega)
          (by
            intro j hj1 hj2
            rcases Nat.lt_or_ge j cur with hlt | hge
            · exact hfail j (by omega) hlt
            · have : j = cur := by omega
              subst this
              exact hfp)
          (by
            rcases hgood with hg | hg
            · left; omega
            · right
              rwa [show cur + 1 - (fails + 1) - 1 = cur - fails - 1 from by omega])
          habort
        obtain ⟨h1, h2, h3, h4, h5, h6⟩ := hrec
        refine ⟨by omega, h2, h3, h4, h5, ?_⟩
        intro e he
        rcases List.mem_cons.mp he with rfl | he'
        · dsimp [PageEvent.page]; omega
        · exact h6 e he'

theorem getPostsLoop_abort_of_window (oracle : Nat → PageOutcome) (total : Nat) :
    ∀ (fuel cur fails : Nat),
      fuel = total + 1 - cur → fails < 5 →
      cur + (4 - fails) ≤ total →
      (∀ j, cur ≤ j → j ≤ cur + (4 - fails) → failedPage oracle j) →
      (getPostsLoop oracle total fuel cur fails).aborted = true := by
  intro fuel
  induction fuel with
  | zero =>
    intro cur fails hfuel hf5 hbound _
    omega
  | succ f ih =>
    intro cur fails hfuel hf5 hbound hwin
    rw [getPostsLoop]
    rw [if_neg (by omega)]
    have hfc : failedPage oracle cur := hwin cur (le_refl _) (by omega)
    cases ho : oracle cur with
    | posts n =>
      cases n with
      | zero =>
        dsimp only
        by_cases hab : 5 ≤ fails + 1
        · rw [if_pos hab]
        · rw [if_neg hab]
          dsimp only
          exact ih (cur + 1) (fails + 1) (by omega) (by omega) (by omega)
            (fun j hj1 hj2 => hwin j (by omega) (by omega))
      | succ m =>
        exact absurd hfc (not_failed_of_success oracle cur m ho)
    | err =>
      dsimp only
      by_cases hab : 5 ≤ fails + 1
      · rw [if_pos hab]
      · rw [if_neg hab]
        dsimp only
        exact ih (cur + 1) (fails + 1) (by omega) (by omega) (by omega)
          (fun j hj1 hj2 => hwin j (by omega) (by omega))

theorem getPostsLoop_abort_reaches (oracle : Nat → PageOutcome)
    (total p : Nat) (hwin : ∀ j, p ≤ j → j ≤ p + 4 → failedPage oracle j)
    (hpt : p + 4 ≤ total) :
    ∀ (fuel cur fails : Nat),
      fuel = total + 1 - cur → fails < 5 → cur ≤ p →
      (getPostsLoop oracle total fuel cur fails).aborted = true := by
  intro fuel
  induction fuel with
  | zero =>
    intro cur fails hfuel hf5 hcp
    omega
  | succ f ih =>
    intro cur fails hfuel hf5 hcp
    rw [getPostsLoop]
    rw [if_neg (by omega)]
    cases ho : oracle cur with
    | posts n =>
      cases n with
      | zero =>
        dsimp only
        by_cases hab : 5 ≤ fails + 1
        · rw [if_pos hab]
        · rw [if_neg hab]
          dsimp only
          rcases Nat.lt_or_ge cur p with hlt | hge
          · exact ih (cur + 1) (fails + 1) (by omega) (by omega) (by omega)
          · have hcurp : cur = p := by omega
            subst hcurp
            exact getPostsLoop_abort_of_window oracle total f (cur + 1)
              (fails + 1) (by omega) (by omega) (by omega)
              (fun j hj1 hj2 => hwin j (by omega) (by omega))
      | succ m =>
        dsimp only
        rcases Nat.lt_or_ge cur p with hlt | hge
        · exact ih (cur + 1) 0 (by omega) (by omega) (by omega)
        · have hcurp : cur = p := by omega
          subst hcurp
          exact absurd (hwin cur (le_refl _) (by omega))
            (not_failed_of_success oracle cur m ho)
    | err =>
      dsimp only
      by_cases hab : 5 ≤ fails + 1
      · rw [if_pos hab]
      · rw [if_neg hab]
        dsimp only
        rcases Nat.lt_or_ge cur p with hlt | hge
        · exact ih (cur + 1) (fails + 1) (by omega) (by omega) (by omega)
        · have hcurp : cur = p := by omega
          subst hcurp
          exact getPostsLoop_abort_of_window oracle total f (cur + 1)
            (fails + 1) (by omega) (by omega) (by omega)
            (fun j hj1 hj2 => hwin j (by omega) (by omega))

/-- C5: if five consecutive pages in range all fail, the adapter aborts
the thread: the page loop stops (no event mentions any page past the
aborting one), and the progress it returns reports `lastScrapedPage`
equal to the page just before the failure streak — the last successful
page (or the page before the starting page when the streak began
immediately) — never a failed page. -/
theorem C5_abort_ceiling (oracle : Nat → PageOutcome) (total start p : Nat)
    (hsp : start ≤ p) (hpt : p + 4 ≤ total)
    (hwin : ∀ j, p ≤ j → j ≤ p + 4 → failedPage oracle j) :
    (getPosts oracle total start).aborted = true ∧
    start ≤ (getPosts oracle total start).abortPage ∧
    (getPosts oracle total start).abortPage ≤ total ∧
    (getPosts oracle total start).lastScrapedPage =
      ((getPosts oracle total start).abortPage : Int) - 5 ∧
    (∀ j, (getPosts oracle total start).abortPage - 4 ≤ j →
      j ≤ (getPosts oracle total start).abortPage → failedPage oracle j) ∧
    ((getPosts oracle total start).abortPage - 4 = start ∨
      ¬ failedPage oracle ((getPosts oracle total start).abortPage - 5)) ∧
    (∀ e ∈ (getPosts oracle total start).events,
      e.page ≤ (getPosts oracle total start).abortPage) := by
  have habort : (getPosts oracle total start).aborted = true :=
    getPostsLoop_abort_reaches oracle total p hwin hpt _ start 0 rfl
      (by omega) hsp
  have hspec := getPostsLoop_abort_spec oracle total start
    (total + 1 - start) start 0 (by omega) (by omega)
    (by intro j hj1 hj2; omega) (Or.inl (by omega)) habort
  exact ⟨habort, hspec.1, hspec.2.1, hspec.2.2.1, hspec.2.2.2.1,
    hspec.2.2.2.2.1, hspec.2.2.2.2.2⟩

/-- The C5 witness oracle: pages 1-2 succeed, everything later fails. -/
def c5Oracle : Nat → PageOutcome := fun p => if p ≤ 2 then .posts 3 else .err

theorem C5_witness :
    (getPosts c5Oracle 10 1).aborted = true ∧
    (getPosts c5Oracle 10 1).lastScrapedPage = 2 ∧
    ¬ failedPage c5Oracle 2 :=
  ⟨(C5_abort_ceiling c5Oracle 10 1 3 (by omega) (by omega)
      (fun j h1 _ => Or.inl (by
        simp only [c5Oracle]
        rw [if_neg (by omega)]))).1,
   by decide,
   not_failed_of_success c5Oracle 2 2 (by decide)⟩

/-! ### C4 - resume start page and cursor movement -/

theorem progressPages_lb (oracle : Nat → PageOutcome) (total : Nat) :
    ∀ (fuel cur fails : Nat), ∀ q ∈ progressPages
      (getPostsLoop oracle total fuel cur fails).events, cur ≤ q := by
  intro fuel
  induction fuel with
  | zero =>
    intro cur fails q hq
    simp [getPostsLoop, progressPages] at hq
  | succ f ih =>
    intro cur fails q hq
    rw [getPostsLoop] at hq
    by_cases hct : total < cur
    · rw [if_pos hct] at hq
      simp [progressPages] at hq
    rw [if_neg hct] at hq
    cases ho : oracle cur with
    | posts n =>
      rw [ho] at hq
      cases n with
      | zero =>
        try dsimp only at hq
        by_cases hab : 5 ≤ fails + 1
        · rw [if_pos hab] at hq
          simp [progressPages] at hq
        · rw [if_neg hab] at hq
          simp only [progressPages, List.filterMap_cons] at hq
          try dsimp only at hq
          rcases List.mem_cons.mp hq with rfl | hq'
          · exact le_refl _
          · exact le_of_lt (Nat.lt_of_lt_of_le (Nat.lt_succ_self _)
              (ih (cur + 1) (fails + 1) q hq'))
      | succ m =>
        try dsimp only at hq
        simp only [progressPages, List.filterMap_cons] at hq
        try dsimp only at hq
        rcases List.mem_cons.mp hq with rfl | hq'
        · exact le_refl _
        · exact le_of_lt (Nat.lt_of_lt_of_le (Nat.lt_succ_self _)
            (ih (cur + 1) 0 q hq'))
    | err =>
      rw [ho] at hq
      try dsimp only at hq
      by_cases hab : 5 ≤ fails + 1
      · rw [if_pos hab] at hq
        simp [progressPages] at hq
      · rw [if_neg hab] at hq
        simp only [progressPages, List.filterMap_cons] at hq
        try dsimp only at hq
        rcases List.mem_cons.mp hq with rfl | hq'
        · exact le_refl _
        · exact le_of_lt (Nat.lt_of_lt_of_le (Nat.lt_succ_self _)
            (ih (cur + 1) (fails + 1) q hq'))

theorem progressPages_chain (oracle : Nat → PageOutcome) (total : Nat) :
    ∀ (fuel cur fails : Nat), List.Chain' (· < ·)
      (progressPages (getPostsLoop oracle total fuel cur fails).events) := by
  intro fuel
  induction fuel with
  | zero =>
    intro cur fails
    simp [getPostsLoop, progressPages]
  | succ f ih =>
    intro cur fails
    rw [getPostsLoop]
    by_cases hct : total < cur
    · rw [if_pos hct]
      simp [progressPages]
    rw [if_neg hct]
    cases ho : oracle cur with
    | posts n =>
      cases n with
      | zero =>
        try dsimp only
        by_cases hab : 5 ≤ fails + 1
        · rw [if_pos hab]
          simp [progressPages]
        · rw [if_neg hab]
          simp only [progressPages, List.filterMap_cons]
          try dsimp only
          refine List.chain'_cons'.mpr ⟨?_, ih (cur + 1) (fails + 1)⟩
          intro b hb
          exact Nat.lt_of_lt_of_le (Nat.lt_succ_self _)
            (progressPages_lb oracle total f (cur + 1) (fails + 1) b
              (List.mem_of_mem_head? hb))
      | succ m =>
        try dsimp only
        simp only [progressPages, List.filterMap_cons]
        try dsimp only
        refine List.chain'_cons'.mpr ⟨?_, ih (cur + 1) 0⟩
        intro b hb
        exact Nat.lt_of_lt_of_le (Nat.lt_succ_self _)
          (progressPages_lb oracle total f (cur + 1) 0 b
            (List.mem_of_mem_head? hb))
    | err =>
      try dsimp only
      by_cases hab : 5 ≤ fails + 1
      · rw [if_pos hab]
        simp [progressPages]
      · rw [if_neg hab]
        simp only [progressPages, List.filterMap_cons]
        try dsimp only
        refine List.chain'_cons'.mpr ⟨?_, ih (cur + 1) (fails + 1)⟩
        intro b hb
        exact Nat.lt_of_lt_of_le (Nat.lt_succ_self _)
          (progressPages_lb oracle total f (cur + 1) (fails + 1) b
            (List.mem_of_mem_head? hb))

theorem getPosts_first_event (oracle : Nat → PageOutcome)
    (total start : Nat) (hst : start ≤ total) :
    ∃ ev, (getPosts oracle total start).events.head? = some ev ∧
      ev.page = start := by
  unfold getPosts
  have hfuel : total + 1 - start = (total - start) + 1 := by omega
  rw [hfuel, getPostsLoop, if_neg (by omega)]
  cases oracle start with
  | posts n =>
    cases n with
    | zero =>
      try dsimp only
      rw [if_neg (by omega)]
      exact ⟨.progress start, rfl, rfl⟩
    | succ m =>
      exact ⟨.pageData start (m + 1), rfl, rfl⟩
  | err =>
    dsimp only
    rw [if_neg (by omega)]
    exact ⟨.progress start, rfl, rfl⟩

/-- C4 (amended): with resume enabled and a positive persisted cursor,
the run starts fetching at exactly `lastScrapedPage` (page 7 resumes at
7, not 8) and the progress checkpoints persisted during the run are
strictly increasing.  The claim's further assertion that the persisted
cursor only ever increases including the final thread update is false:
a checkpoint can record a failed page, and an abort then rolls the final
update back to the last successful page (see
`C4_persisted_cursor_decreases`). -/
theorem C4_resume_and_checkpoints (oracle : Nat → PageOutcome)
    (total : Nat) (lastScraped : Int) (hL : 0 < lastScraped)
    (hst : lastScraped.toNat ≤ total) :
    startPageOf true lastScraped = lastScraped ∧
    (∃ ev, (getPosts oracle total lastScraped.toNat).events.head? = some ev ∧
      ev.page = lastScraped.toNat) ∧
    List.Chain' (· < ·)
      (checkpointPages (getPosts oracle total lastScraped.toNat).events) := by
  refine ⟨?_, getPosts_first_event oracle total _ hst, ?_⟩
  · unfold startPageOf
    rw [if_pos ⟨rfl, hL⟩]
  · exact List.Chain'.sublist
      (progressPages_chain oracle total _ lastScraped.toNat 0)
      (List.filter_sublist _)

/-- Pages up to 9 succeed; page 10 and later fail.  Resuming at page 7
with 20 total pages, the runner checkpoints the (failed) page 10 and the
aborting adapter then reports page 9, so the persisted cursor goes
10 → 9. -/
def c4Oracle : Nat → PageOutcome := fun p => if p ≤ 9 then .posts 1 else .err

/-- C4 counterexample: on a resumed run from `lastScrapedPage = 7`, the
successive persisted cursor values are `[10, 9]` — the final thread
update moves the cursor *backwards*, refuting monotonic advancement
across progress checkpoints and the final update. -/
theorem C4_persisted_cursor_decreases :
    persistedCursorTrace
        (getPosts c4Oracle 20 (startPageOf true 7).toNat) = [10, 9] ∧
    ¬ List.Chain' (· ≤ ·) (persistedCursorTrace
        (getPosts c4Oracle 20 (startPageOf true 7).toNat)) := by
  have ht : persistedCursorTrace
      (getPosts c4Oracle 20 (startPageOf true 7).toNat) = [10, 9] := by
    decide
  refine ⟨ht, ?_⟩
  rw [ht]
  simp [List.chain'_cons]

theorem C4_witness :
    startPageOf true 7 = 7 ∧
    (∃ ev, (getPosts c4Oracle 20 (7 : Int).toNat).events.head? = some ev ∧
      ev.page = (7 : Int).toNat) ∧
    List.Chain' (· < ·)
      (checkpointPages (getPosts c4Oracle 20 (7 : Int).toNat).events) :=
  C4_resume_and_checkpoints c4Oracle 20 7 (by omega) (by decide)

/-! ### C10 - quote-stripping loops terminate at a quote-free fixpoint -/

theorem replaceScan_nil_spec (r : RE) :
    ∀ (fuel : Nat) (prev : Option Nat) (s : List Nat),
      (replaceScan r [] fuel prev s).length ≤ s.length ∧
      ((replaceScan r [] fuel prev s).length = s.length →
        replaceScan r [] fuel prev s = s) := by
  intro fuel
  induction fuel with
  | zero => intro prev s; exact ⟨le_refl _, fun _ => rfl⟩
  | succ f ih =>
    intro prev s
    cases s with
    | nil => exact ⟨le_refl _, fun _ => rfl⟩
    | cons c rest =>
      rw [replaceScan]
      cases hm : matchAtPos r prev (c :: rest) with
      | none =>
        dsimp only
        obtain ⟨h1, h2⟩ := ih (some c) rest
        refine ⟨by simpa using Nat.succ_le_succ h1, ?_⟩
        intro hlen
        simp only [List.length_cons, Nat.succ.injEq] at hlen
        rw [h2 hlen]
      | some nc =>
        obtain ⟨n, caps⟩ := nc
        cases n with
        | zero =>
          dsimp only
          obtain ⟨h1, h2⟩ := ih (some c) rest
          refine ⟨by simpa using Nat.succ_le_succ h1, ?_⟩
          intro hlen
          simp only [List.length_cons, Nat.succ.injEq] at hlen
          rw [h2 hlen]
        | succ m =>
          dsimp only
          obtain ⟨h1, h2⟩ := ih ((c :: rest).take (m + 1)).getLast?
            ((c :: rest).drop (m + 1))
          rw [List.nil_append]
          have hdlen : ((c :: rest).drop (m + 1)).length
              = rest.length - m := by
            simp [List.length_drop]
          constructor
          · refine le_trans h1 ?_
            rw [hdlen]
            simp only [List.length_cons]
            omega
          · intro hlen
            exfalso
            rw [hdlen] at h1
            simp only [List.length_cons] at hlen
            omega

theorem jsReplaceAll_nil_spec (r : RE) (s : List Nat) :
    (jsReplaceAll r [] s).length ≤ s.length ∧
    ((jsReplaceAll r [] s).length = s.length → jsReplaceAll r [] s = s) :=
  replaceScan_nil_spec r (s.length + 1) none s

theorem jsReplaceAll_nil_shrink (r : RE) (s : List Nat) :
    jsReplaceAll r [] s = s ∨ (jsReplaceAll r [] s).length < s.length := by
  obtain ⟨h1, h2⟩ := jsReplaceAll_nil_spec r s
  rcases Nat.lt_or_ge (jsReplaceAll r [] s).length s.length with hlt | hge
  · exact Or.inr hlt
  · exact Or.inl (h2 (by omega))

theorem quoteLoop_fixpoint (step : List Nat → List Nat)
    (hstep : ∀ u, (step u).length ≤ u.length ∧
      ((step u).length = u.length → step u = u)) :
    ∀ (fuel : Nat) (s : List Nat), s.length < fuel →
      step (quoteLoop step fuel s) = quoteLoop step fuel s := by
  intro fuel
  induction fuel with
  | zero => intro s h; omega
  | succ f ih =>
    intro s hs
    rw [quoteLoop]
    try dsimp only
    by_cases hlen : (step s).length = s.length
    · rw [if_pos hlen]
      have heq : step s = s := (hstep s).2 hlen
      rw [heq]
      exact heq
    · rw [if_neg hlen]
      apply ih
      have h1 := (hstep s).1
      omega

theorem runQuoteLoop_fixpoint (step : List Nat → List Nat)
    (hstep : ∀ u, (step u).length ≤ u.length ∧
      ((step u).length = u.length → step u = u)) (s : List Nat) :
    step (runQuoteLoop step s) = runQuoteLoop step s :=
  quoteLoop_fixpoint step hstep (s.length + 1) s (Nat.lt_succ_self _)

/-- C10: the two replace-until-fixpoint loops of `stripHtmlWithQuotes`
terminate — one application of either quote-removal step leaves the
string unchanged or strictly shortens it, so `length + 1` iterations
reach a fixed point — and at the loops' exits removing blockquote
elements (respectively quote-classed divs) removes nothing: the value
handed on contains no match of the corresponding quote pattern.  The
final conjunct exhibits the blockquote loop actually erasing a concrete
nested quote. -/
theorem C10_quote_strip_termination (html : List Nat) :
    (∀ u : List Nat, bqStep u = u ∨ (bqStep u).length < u.length) ∧
    (∀ u : List Nat, divQuoteStep u = u ∨
      (divQuoteStep u).length < u.length) ∧
    bqStep (runQuoteLoop bqStep html) = runQuoteLoop bqStep html ∧
    divQuoteStep (runQuoteLoop divQuoteStep (runQuoteLoop bqStep html)) =
      runQuoteLoop divQuoteStep (runQuoteLoop bqStep html) ∧
    runQuoteLoop bqStep (strCodes "a<blockquote>x</blockquote>b") =
      strCodes "ab" := by
  refine ⟨fun u => jsReplaceAll_nil_shrink _ u,
    fun u => jsReplaceAll_nil_shrink _ u,
    runQuoteLoop_fixpoint _ (fun u => jsReplaceAll_nil_spec _ u) html,
    runQuoteLoop_fixpoint _ (fun u => jsReplaceAll_nil_spec _ u) _,
    by decide⟩
